import Mathlib

/-!
Verification development for the `two_points_interpolation_py` repository.

The two planners (`two_point_interpolation/constant_acc.py` and
`two_point_interpolation/constant_jerk.py`) are shallowly embedded below.
Python floats are idealised as real numbers (`ℝ`), `np.sqrt` as `Real.sqrt`,
`np.power(x, 1/3.0)` as `x ^ ((1:ℝ)/3)` (real power), and `np.fabs` as `|·|`.
Mutation of the planner object is modelled by explicit state passing: each
mutating method maps a state to a state (plus, for fallible methods, an
`Except` value carrying the error, and for `calc_trajectory` the number of
`UserWarning`s emitted).  `normalize_angle`, which the source computes as
`atan2(sin x, cos x)`, is embedded as `Complex.arg (cos x + sin x * I)`,
the exact mathematical meaning of that expression.
-/

noncomputable section

/-- Error taxonomy of the library: one constructor per distinct `raise`
site/`ValueError` family in the sources (plus `notCalculated` for the
getter methods, see the spec-modelled definitions below). -/
inductive PlanError where
  | invalidConstraint
  | endPointNotSet
  | constraintsNotSet
  | initialStateNotSet
  | invalidBoundaryCondition
  | discriminantNonpositive
  | noPositiveSolution
  | negativeCruise
  | notCalculated
  deriving DecidableEq

namespace ConstantAcc

/-- `v_integ` from constant_acc.py: integrate velocity from acceleration. -/
def v_integ (v0 a dt : ℝ) : ℝ := v0 + a * dt

/-- `p_integ` from constant_acc.py: integrate position from velocity and
acceleration. -/
def p_integ (p0 v0 a dt : ℝ) : ℝ := p0 + v0 * dt + 0.5 * a * dt ^ 2

/-- State of a `TwoPointInterpolation` (constant_acc.py) object.  Field
defaults are the values assigned by `__init__`. -/
structure State where
  t0 : ℝ := 0
  p0 : ℝ := 0
  v0 : ℝ := 0
  pe : ℝ := 0
  ve : ℝ := 0
  vmax : ℝ := 0
  amax_accel : ℝ := 0
  amax_decel : ℝ := 0
  dt : List ℝ := []
  a : List ℝ := []
  v : List ℝ := []
  p : List ℝ := []
  case : ℤ := 0
  point_setted : Bool := false
  constraints_setted : Bool := false
  initial_state_setted : Bool := false
  trajectory_calced : Bool := false

/-- `TwoPointInterpolation.set_initial`. -/
def set_initial (st : State) (t0 p0 v0 : ℝ) : State :=
  { st with t0 := t0, p0 := p0, v0 := v0, initial_state_setted := true }

/-- `TwoPointInterpolation.set_point`. -/
def set_point (st : State) (pe ve : ℝ) : State :=
  { st with pe := pe, ve := ve, point_setted := true }

/-- `TwoPointInterpolation.set_constraints`; `dec_max = none` models the
omitted optional argument (defaulting to `acc_max`). -/
def set_constraints (st : State) (acc_max vmax : ℝ) (dec_max : Option ℝ) :
    Except PlanError State :=
  if acc_max ≤ 0 then .error .invalidConstraint
  else if vmax ≤ 0 then .error .invalidConstraint
  else
    let dm := dec_max.getD acc_max
    if dm ≤ 0 then .error .invalidConstraint
    else .ok { st with amax_accel := acc_max, amax_decel := dm, vmax := vmax,
                       constraints_setted := true }

/-- `TwoPointInterpolation.init`: the aggregate of the three setters,
starting from a freshly constructed object. -/
def init (p0 pe acc_max vmax t0 v0 ve : ℝ) (dec_max : Option ℝ) :
    Except PlanError State :=
  set_constraints (set_point (set_initial {} t0 p0 v0) pe ve) acc_max vmax dec_max

/-- Displacement `dp = pe - p0` read inside `calc_trajectory`. -/
def tp_dp (st : State) : ℝ := st.pe - st.p0

/-- `sign = dp / np.fabs(dp)`. -/
def tp_sign (st : State) : ℝ := tp_dp st / |tp_dp st|

/-- `acc = self.amax_accel * sign`. -/
def tp_acc (st : State) : ℝ := st.amax_accel * tp_sign st

/-- `dec = self.amax_decel * sign`. -/
def tp_dec (st : State) : ℝ := st.amax_decel * tp_sign st

/-- `a_coeff = 0.5 * acc * (1 + ratio)` with `ratio = acc / dec`. -/
def tp_a_coeff (st : State) : ℝ := 0.5 * tp_acc st * (1 + tp_acc st / tp_dec st)

/-- `b_coeff = v0 * (1 + ratio)`. -/
def tp_b_coeff (st : State) : ℝ := st.v0 * (1 + tp_acc st / tp_dec st)

/-- `c_coeff = -dp + (v0**2 - ve**2) / (2 * dec)`. -/
def tp_c_coeff (st : State) : ℝ :=
  -tp_dp st + (st.v0 ^ 2 - st.ve ^ 2) / (2 * tp_dec st)

/-- `discriminant = b_coeff**2 - 4 * a_coeff * c_coeff`. -/
def tp_disc (st : State) : ℝ :=
  tp_b_coeff st ^ 2 - 4 * tp_a_coeff st * tp_c_coeff st

/-- `dt01_plus = (-b_coeff + sqrt_disc) / (2 * a_coeff)`. -/
def tp_dt01_plus (st : State) : ℝ :=
  (-tp_b_coeff st + Real.sqrt (tp_disc st)) / (2 * tp_a_coeff st)

/-- `dt01_minus = (-b_coeff - sqrt_disc) / (2 * a_coeff)`. -/
def tp_dt01_minus (st : State) : ℝ :=
  (-tp_b_coeff st - Real.sqrt (tp_disc st)) / (2 * tp_a_coeff st)

/-- Positive-root selection of `calc_trajectory`: both positive → the
smaller; else whichever is positive; else no solution. -/
def tp_root (st : State) : Option ℝ :=
  if 0 < tp_dt01_plus st ∧ 0 < tp_dt01_minus st then
    some (min (tp_dt01_plus st) (tp_dt01_minus st))
  else if 0 < tp_dt01_plus st then some (tp_dt01_plus st)
  else if 0 < tp_dt01_minus st then some (tp_dt01_minus st)
  else none

/-- Result of one `calc_trajectory` call: the (possibly mutated) object
state, the returned duration or raised error, and the number of
`UserWarning`s (`warnings.warn`) emitted during the call. -/
structure CalcResult where
  state : State
  res : Except PlanError ℝ
  warns : ℕ

/-- Tail of `calc_trajectory` for Case 1 (vmax reached), shared by the
accelerate-to-cap and decelerate-to-cap (overspeed) entry branches.
`stc` is the object state after the plan lists were re-initialised and
phase 1 computed; `a1`, `dt01`, `p1` are phase-1 acceleration, duration
and end position; `w` the warnings emitted so far. -/
def tp_case1_finish (stc : State) (dec v1 dt01 a1 p1 : ℝ) (w : ℕ) : CalcResult :=
  let v2 := v1
  let dt2e := |(v2 - stc.ve) / dec|
  let dp2e := p_integ 0 v2 (-dec) dt2e
  let dt12 := (stc.pe - p1 - dp2e) / v1
  if dt12 < 0 then
    ⟨{ stc with dt := [dt01], a := [a1], v := [stc.v0, v1], p := [stc.p0, p1],
                case := 1 },
     .error .negativeCruise, w⟩
  else
    let p2 := stc.pe - dp2e
    let st' := { stc with dt := [dt01, dt12, dt2e], a := [a1, 0, -dec],
                          v := [stc.v0, v1, v2], p := [stc.p0, p1, p2],
                          case := 1, trajectory_calced := true }
    ⟨st', .ok st'.dt.sum, w⟩

/-- `TwoPointInterpolation.calc_trajectory` (constant_acc.py, lines
215-375), embedded clause by clause.  Errors return the state exactly as
mutated up to the corresponding `raise`. -/
def calc_trajectory (st : State) : CalcResult :=
  if st.point_setted = false then ⟨st, .error .endPointNotSet, 0⟩
  else if st.constraints_setted = false then ⟨st, .error .constraintsNotSet, 0⟩
  else if st.initial_state_setted = false then ⟨st, .error .initialStateNotSet, 0⟩
  else if tp_dp st = 0 then
    if st.ve - st.v0 = 0 then
      ⟨{ st with dt := [], a := [], v := [st.v0], p := [st.p0], case := -1,
                 trajectory_calced := true }, .ok 0, 0⟩
    else ⟨st, .error .invalidBoundaryCondition, 0⟩
  else
    let stc : State := { st with dt := [], a := [], v := [st.v0], p := [st.p0] }
    if tp_disc st ≤ 0 then ⟨stc, .error .discriminantNonpositive, 0⟩
    else
      match tp_root st with
      | none => ⟨stc, .error .noPositiveSolution, 0⟩
      | some dt01 =>
        let acc := tp_acc st
        let dec := tp_dec st
        let v1 := v_integ st.v0 acc dt01
        if |v1| < st.vmax then
          let p1 := p_integ st.p0 st.v0 acc dt01
          let dt1e := |(v1 - st.ve) / dec|
          let st' := { stc with dt := [dt01, dt1e], a := [acc, -dec],
                                v := [st.v0, v1], p := [st.p0, p1], case := 0,
                                trajectory_calced := true }
          ⟨st', .ok st'.dt.sum, 0⟩
        else
          let v1' := st.vmax * tp_sign st
          if tp_sign st * st.v0 < tp_sign st * v1' then
            let dt01' := |(v1' - st.v0) / acc|
            tp_case1_finish stc dec v1' dt01' acc (p_integ st.p0 st.v0 acc dt01') 0
          else
            let dt01' := |(v1' - st.v0) / dec|
            tp_case1_finish stc dec v1' dt01' (-dec)
              (p_integ st.p0 st.v0 (-dec) dt01') 1

/-- The per-phase data consulted by `get_point`'s lookup loop:
`(dt[i], a[i], v[i], p[i])`. -/
def phases (st : State) : List (ℝ × ℝ × ℝ × ℝ) :=
  st.dt.zip (st.a.zip (st.v.zip st.p))

/-- The lookup loop of `get_point`: find the first phase `i` with
`tau <= sum(dt[:i]) + dt[i]`; `off` is the running `sum(dt[:i])`. -/
def phase_lookup (tau : ℝ) :
    List (ℝ × ℝ × ℝ × ℝ) → ℝ → Option (ℝ × ℝ × ℝ × ℝ)
  | [], _ => none
  | ph :: rest, off =>
    if tau ≤ off + ph.1 then some (tau - off, ph.2.1, ph.2.2.1, ph.2.2.2)
    else phase_lookup tau rest (off + ph.1)

/-- `TwoPointInterpolation.get_point` (constant_acc.py, lines 377-420).
Returns `(p, v, a)`.  Note the source has no trajectory-calculated check:
the function is total on any constructed object. -/
def get_point (st : State) (t : ℝ) : ℝ × ℝ × ℝ :=
  let tau := t - st.t0
  if st.case = -1 then (st.p0, st.v0, 0)
  else if tau < 0 then (st.p0, st.v0, 0)
  else if st.dt.sum ≤ tau then (st.pe, st.ve, 0)
  else
    match phase_lookup tau (phases st) 0 with
    | some (tin, ain, vin, pin) =>
      (p_integ pin vin ain tin, v_integ vin ain tin, ain)
    | none => (p_integ 0 0 0 tau, v_integ 0 0 tau, 0)

end ConstantAcc

namespace ConstantJerk

/-- State of a `TwoPointInterpolation` (constant_jerk.py) object reached
through the `init` route (which sets `p0`; the legacy `ps` route is the
same computation with `ps` in place of `p0`).  The booleans `has_t1` and
`has_case` model Python's `hasattr(self, 't1')` / `hasattr(self, 'case')`:
both attributes are first assigned inside `calc_trajectory`. -/
structure State where
  t0 : ℝ := 0
  p0 : ℝ := 0
  v0 : ℝ := 0
  pe : ℝ := 0
  ve : ℝ := 0
  vmax : ℝ := 0
  amax : ℝ := 0
  jmax : ℝ := 0
  t1 : ℝ := 0
  t2 : ℝ := 0
  t3 : ℝ := 0
  te : ℝ := 0
  case : ℤ := 0
  point_setted : Bool := false
  constraints_setted : Bool := false
  initial_state_setted : Bool := false
  trajectory_calced : Bool := false
  has_t1 : Bool := false
  has_case : Bool := false

/-- `TwoPointInterpolation.init` (constant_jerk.py): `set_initial`,
`set_point(pe)` (which also defaults `ve := 0` before it is overwritten),
`self.ve = ve`, then `set_constraints` with its positivity validation. -/
def init (p0 pe amax vmax jmax t0 v0 ve : ℝ) : Except PlanError State :=
  if amax ≤ 0 ∨ vmax ≤ 0 ∨ jmax ≤ 0 then .error .invalidConstraint
  else .ok { t0 := t0, p0 := p0, v0 := v0, pe := pe, ve := ve,
             vmax := vmax, amax := amax, jmax := jmax,
             point_setted := true, constraints_setted := true,
             initial_state_setted := true }

/-- Seed duration `t1 = (|dp| / 2 / jmax) ** (1/3)` of `calc_trajectory`. -/
def cj_t1seed (st : State) : ℝ := (|st.pe - st.p0| / 2 / st.jmax) ^ ((1 : ℝ) / 3)

/-- `TwoPointInterpolation.calc_trajectory` (constant_jerk.py, lines
95-155): degenerate check then the four-case ladder.  Returns the mutated
state and the returned duration or raised error. -/
def calc_trajectory (st : State) : State × Except PlanError ℝ :=
  if st.point_setted = false then (st, .error .endPointNotSet)
  else if st.constraints_setted = false then (st, .error .constraintsNotSet)
  else
    let ps := st.p0
    if st.pe - ps = 0 then
      if st.ve ≠ st.v0 then (st, .error .invalidBoundaryCondition)
      else
        ({ st with case := -1, te := 0, t1 := 0, trajectory_calced := true,
                   has_t1 := true, has_case := true }, .ok 0)
    else
      let t1a := cj_t1seed st
      if t1a * st.jmax < st.amax then
        if t1a * st.jmax * t1a < st.vmax then
          ({ st with t1 := t1a, case := 0, te := 4 * t1a,
                     trajectory_calced := true, has_t1 := true,
                     has_case := true }, .ok (4 * t1a))
        else
          let t1b := Real.sqrt (st.vmax / st.jmax)
          let t2b := |st.pe - ps| / st.vmax - 2 * Real.sqrt (st.vmax / st.jmax)
          ({ st with t1 := t1b, t2 := t2b, case := 1, te := 4 * t1b + t2b,
                     trajectory_calced := true, has_t1 := true,
                     has_case := true }, .ok (4 * t1b + t2b))
      else
        let t1c := st.amax / st.jmax
        let t2c := -1.5 * t1c +
          Real.sqrt (4 * |st.pe - ps| / st.amax + 1 / 3 * t1c ^ 2) / 2
        if (t1c + t2c) * st.amax < st.vmax then
          ({ st with t1 := t1c, t2 := t2c, case := 2, te := 4 * t1c + 2 * t2c,
                     trajectory_calced := true, has_t1 := true,
                     has_case := true }, .ok (4 * t1c + 2 * t2c))
        else
          let t2d := st.vmax / st.amax - t1c
          let t3d := |st.pe - ps| / st.vmax - 2 * t1c - t2d
          ({ st with t1 := t1c, t2 := t2d, t3 := t3d, case := 3,
                     te := 4 * t1c + 2 * t2d + t3d,
                     trajectory_calced := true, has_t1 := true,
                     has_case := true }, .ok (4 * t1c + 2 * t2d + t3d))

/-- Direction flip at the end of each in-window branch of `get_point`:
`if self.pe < ps: j, a, v, p = -j, -a, -v, -p`.  The quadruple is ordered
`(j, a, v, p)` as in the source assignments. -/
def cj_flip (neg : Bool) (q : ℝ × ℝ × ℝ × ℝ) : ℝ × ℝ × ℝ × ℝ :=
  if neg then (-q.1, -q.2.1, -q.2.2.1, -q.2.2.2) else q

/-- `TwoPointInterpolation.get_point` (constant_jerk.py, lines 157-443),
returning `(p, v, a, j)`.  `none` models the
`"Trajectory not calculated"` `ValueError` raised when `t1` is absent. -/
def get_point (st : State) (t : ℝ) : Option (ℝ × ℝ × ℝ × ℝ) :=
  let ps := st.p0
  let tau := t - st.t0
  let jmax := st.jmax
  let amax := st.amax
  let vmax := st.vmax
  let t1 := st.t1
  if st.has_case = true ∧ st.case = -1 then some (ps, st.v0, 0, 0)
  else if st.has_t1 = false then none
  else if st.case = 0 then
    if tau < 0 then some (ps, 0, 0, if st.pe < ps then -jmax else jmax)
    else if tau < 4 * t1 then
      let q : ℝ × ℝ × ℝ × ℝ :=
        if tau < t1 then
          (jmax, jmax * tau, 0.5 * jmax * tau ^ 2, 1 / 6 * jmax * tau ^ 3)
        else if tau < 3 * t1 then
          let tau1 := tau - t1
          (-jmax, -jmax * tau1 + jmax * t1,
           -(0.5) * jmax * tau1 ^ 2 + jmax * t1 * tau1 + 0.5 * jmax * t1 ^ 2,
           -(1 / 6) * jmax * tau1 ^ 3 + 0.5 * jmax * t1 * tau1 ^ 2 +
             0.5 * jmax * t1 ^ 2 * tau1 + 1 / 6 * jmax * t1 ^ 3)
        else
          let tau3 := tau - 3 * t1
          (jmax, jmax * tau3 - jmax * t1,
           0.5 * jmax * tau3 ^ 2 - jmax * t1 * tau3 + 0.5 * jmax * t1 ^ 2,
           1 / 6 * jmax * tau3 ^ 3 - 0.5 * jmax * t1 * tau3 ^ 2 +
             0.5 * jmax * t1 ^ 2 * tau3 + 11 / 6 * jmax * t1 ^ 3)
      let q := cj_flip (st.pe < ps) q
      some (q.2.2.2 + ps, q.2.2.1, q.2.1, q.1)
    else some (st.pe, 0, 0, if st.pe < ps then -jmax else jmax)
  else if st.case = 1 then
    let t2 := st.t2
    if tau < 0 then some (ps, 0, 0, if st.pe < ps then -jmax else jmax)
    else if tau < 4 * t1 + t2 then
      let q : ℝ × ℝ × ℝ × ℝ :=
        if tau < t1 then
          (jmax, jmax * tau, 0.5 * jmax * tau ^ 2, 1 / 6 * jmax * tau ^ 3)
        else if tau < 2 * t1 then
          let tau1 := tau - t1
          (-jmax, -jmax * tau1 + jmax * t1,
           -(0.5) * jmax * tau1 ^ 2 + jmax * t1 * tau1 + 0.5 * jmax * t1 ^ 2,
           -(1 / 6) * jmax * tau1 ^ 3 + 0.5 * jmax * t1 * tau1 ^ 2 +
             0.5 * jmax * t1 ^ 2 * tau1 + 1 / 6 * jmax * t1 ^ 3)
        else if tau < 2 * t1 + t2 then
          let tau2 := tau - 2 * t1
          (0, 0, vmax, vmax * tau2 + jmax * t1 ^ 3)
        else if tau < 3 * t1 + t2 then
          let tau3 := tau - 2 * t1 - t2
          (-jmax, -jmax * tau3, -(0.5) * jmax * tau3 ^ 2 + vmax,
           -(1 / 6) * jmax * tau3 ^ 3 + vmax * tau3 + vmax * t2 +
             jmax * t1 ^ 3)
        else
          let tau4 := tau - 3 * t1 - t2
          (jmax, jmax * tau4 - jmax * t1,
           0.5 * jmax * tau4 ^ 2 - jmax * t1 * tau4 - 0.5 * jmax * t1 ^ 2 + vmax,
           1 / 6 * jmax * tau4 ^ 3 - 0.5 * jmax * t1 * tau4 ^ 2 +
             0.5 * jmax * t1 ^ 2 * tau4 + vmax * t2 + vmax * t1 +
             5 / 6 * jmax * t1 ^ 3)
      let q := cj_flip (st.pe < ps) q
      some (q.2.2.2 + ps, q.2.2.1, q.2.1, q.1)
    else some (st.pe, 0, 0, if st.pe < ps then -jmax else jmax)
  else if st.case = 2 then
    let t2 := st.t2
    if tau < 0 then some (ps, 0, 0, if st.pe < ps then -jmax else jmax)
    else if tau < 4 * t1 + 2 * t2 then
      let q : ℝ × ℝ × ℝ × ℝ :=
        if tau < t1 then
          (jmax, jmax * tau, 0.5 * jmax * tau ^ 2, 1 / 6 * jmax * tau ^ 3)
        else if tau < t1 + t2 then
          let tau1 := tau - t1
          (0, amax, amax * tau1 + 0.5 * amax ^ 2 / jmax,
           0.5 * amax * tau1 ^ 2 + 0.5 * amax ^ 2 / jmax * tau1 +
             1 / 6 * amax ^ 3 / jmax ^ 2)
        else if tau < 3 * t1 + t2 then
          let tau2 := tau - t1 - t2
          (-jmax, -jmax * tau2 + amax,
           -(0.5) * jmax * tau2 ^ 2 + amax * tau2 + amax * t2 +
             0.5 * amax ^ 2 / jmax,
           -(1 / 6) * jmax * tau2 ^ 3 + 0.5 * amax * tau2 ^ 2 +
             (amax * t2 + 0.5 * amax ^ 2 / jmax) * tau2 +
             0.5 * amax * t2 ^ 2 + 0.5 * amax ^ 2 / jmax * t2 +
             1 / 6 * amax ^ 3 / jmax ^ 2)
        else if tau < 3 * t1 + 2 * t2 then
          let tau3 := tau - 3 * t1 - t2
          (0, -amax, -amax * tau3 + amax * t2 + 0.5 * amax ^ 2 / jmax,
           -(0.5) * amax * tau3 ^ 2 +
             (amax * t2 + 0.5 * amax ^ 2 / jmax) * tau3 +
             0.5 * amax * t2 ^ 2 + 2.5 * amax ^ 2 / jmax * t2 +
             2 * amax ^ 3 / jmax ^ 2)
        else
          let tau4 := tau - 3 * t1 - 2 * t2
          (jmax, jmax * tau4 - amax,
           0.5 * jmax * tau4 ^ 2 - amax * tau4 + 0.5 * amax ^ 2 / jmax,
           1 / 6 * jmax * tau4 ^ 3 - 0.5 * amax * tau4 ^ 2 +
             0.5 * amax ^ 2 / jmax * tau4 + amax * t2 ^ 2 +
             3 * amax ^ 2 / jmax * t2 + 2 * amax ^ 3 / jmax ^ 2)
      let q := cj_flip (st.pe < ps) q
      some (q.2.2.2 + ps, q.2.2.1, q.2.1, q.1)
    else some (st.pe, 0, 0, if st.pe < ps then -jmax else jmax)
  else if st.case = 3 then
    let t2 := st.t2
    let t3 := st.t3
    if tau < 0 then some (ps, 0, 0, if st.pe < ps then -jmax else jmax)
    else if tau < 4 * t1 + 2 * 2 * t2 + t3 then
      let q : ℝ × ℝ × ℝ × ℝ :=
        if tau < t1 then
          (jmax, jmax * tau, 0.5 * jmax * tau ^ 2, 1 / 6 * jmax * tau ^ 3)
        else if tau < t1 + t2 then
          let tau1 := tau - t1
          (0, amax, amax * tau1 + 0.5 * amax ^ 2 / jmax,
           0.5 * amax * tau1 ^ 2 + 0.5 * amax ^ 2 / jmax * tau1 +
             1 / 6 * amax ^ 3 / jmax ^ 2)
        else if tau < 2 * t1 + t2 then
          let tau2 := tau - t1 - t2
          (-jmax, -jmax * tau2 + amax,
           -(0.5) * jmax * tau2 ^ 2 + amax * tau2 + amax * t2 +
             0.5 * amax ^ 2 / jmax,
           -(1 / 6) * jmax * tau2 ^ 3 + 0.5 * amax * tau2 ^ 2 +
             (amax * t2 + 0.5 * amax ^ 2 / jmax) * tau2 +
             0.5 * amax * t2 ^ 2 + 0.5 * amax ^ 2 / jmax * t2 +
             1 / 6 * amax ^ 3 / jmax ^ 2)
        else if tau < 2 * t1 + t2 + t3 then
          let tau3 := tau - 2 * t1 - t2
          (0, 0, vmax, vmax * tau3 + vmax * t1 + 0.5 * vmax * t2)
        else if tau < 3 * t1 + t2 + t3 then
          let tau4 := tau - 2 * t1 - t2 - t3
          (-jmax, -jmax * tau4, -(0.5) * jmax * tau4 ^ 2 + vmax,
           -(1 / 6) * jmax * tau4 ^ 3 + vmax * tau4 +
             vmax * (t1 + 0.5 * t2 + t3))
        else if tau < 3 * t1 + 2 * t2 + t3 then
          let tau5 := tau - 3 * t1 - t2 - t3
          (0, -amax, -amax * tau5 - 0.5 * amax ^ 2 / jmax + vmax,
           -(0.5) * amax * tau5 ^ 2 +
             (vmax - 0.5 * amax ^ 2 / jmax) * tau5 +
             vmax * (2 * t1 + 0.5 * t2 + t3) - 1 / 6 * amax ^ 3 / jmax ^ 2)
        else
          let tau6 := tau - 3 * t1 - 2 * t2 - t3
          (jmax, jmax * tau6 - amax,
           0.5 * jmax * tau6 ^ 2 - amax * tau6 + 0.5 * amax ^ 2 / jmax,
           1 / 6 * jmax * tau6 ^ 3 - 0.5 * amax * tau6 ^ 2 +
             0.5 * amax ^ 2 / jmax * tau6 + vmax * (2 * t1 + t2 + t3) -
             1 / 6 * amax ^ 3 / jmax ^ 2)
      let q := cj_flip (st.pe < ps) q
      some (q.2.2.2 + ps, q.2.2.1, q.2.1, q.1)
    else some (st.pe, 0, 0, if st.pe < ps then -jmax else jmax)
  else some (0, 0, 0, 0)

end ConstantJerk

/-- `normalize_angle` (constant_acc.py, lines 54-66): the source computes
`np.arctan2(np.sin(angle), np.cos(angle))`; `atan2(y, x)` is by definition
`Complex.arg (x + y*I)`, so the embedding is
`arg (cos angle + sin angle * I)`, i.e. the representative of `angle`
modulo `2π` lying in `(-π, π]`. -/
def normalize_angle (angle : ℝ) : ℝ :=
  Complex.arg (Complex.cos angle + Complex.sin angle * Complex.I)

/-- `TwoAngleInterpolation.init` (constant_acc.py, lines 442-470):
normalize both angles, take the shortest signed displacement, and delegate
to the parent's setters with target `p0_normalized + dp`. -/
def angle_init (p0 pe acc_max vmax t0 v0 ve : ℝ) (dec_max : Option ℝ) :
    Except PlanError ConstantAcc.State :=
  let p0n := normalize_angle p0
  let pen := normalize_angle pe
  let dp := normalize_angle (pen - p0n)
  ConstantAcc.set_constraints
    (ConstantAcc.set_point (ConstantAcc.set_initial {} t0 p0n v0) (p0n + dp) ve)
    acc_max vmax dec_max

/-! ## Spec-side definitions (written from the specification's words, for
refinement comparisons) -/

/-- Case selection and total duration exactly as worded in claim C3 /
spec §4.3: seed `t1 = (|Δp|/(2·jmax))^(1/3)`; four-case ladder on the
acceleration and velocity caps. -/
def specCaseLadder (dp amax vmax jmax : ℝ) : ℤ × ℝ :=
  let t1 := (|dp| / (2 * jmax)) ^ ((1 : ℝ) / 3)
  if t1 * jmax < amax ∧ t1 ^ 2 * jmax < vmax then (0, 4 * t1)
  else if t1 * jmax < amax ∧ ¬(t1 ^ 2 * jmax < vmax) then
    let t1' := Real.sqrt (vmax / jmax)
    let t2 := |dp| / vmax - 2 * t1'
    (1, 4 * t1' + t2)
  else
    let t1' := amax / jmax
    let t2 := -1.5 * t1' + Real.sqrt (4 * |dp| / amax + t1' ^ 2 / 3) / 2
    if (t1' + t2) * amax < vmax then (2, 4 * t1' + 2 * t2)
    else
      let t2' := vmax / amax - t1'
      let t3 := |dp| / vmax - 2 * t1' - t2'
      (3, 4 * t1' + 2 * t2' + t3)

/-! ## Helper lemmas -/

/-- The selected quadratic root of the trapezoidal planner is positive. -/
lemma tp_root_pos {st : ConstantAcc.State} {d : ℝ}
    (h : ConstantAcc.tp_root st = some d) : 0 < d := by
  unfold ConstantAcc.tp_root at h
  split_ifs at h with h1 h2 h3
  · simp only [Option.some.injEq] at h; subst h; exact lt_min h1.1 h1.2
  · simp only [Option.some.injEq] at h; subst h; exact h2
  · simp only [Option.some.injEq] at h; subst h; exact h3

/-- The selected root really solves the quadratic
`a_coeff·d² + b_coeff·d + c_coeff = 0`. -/
lemma tp_root_isRoot {st : ConstantAcc.State} {d : ℝ}
    (h : ConstantAcc.tp_root st = some d)
    (hdisc : 0 ≤ ConstantAcc.tp_disc st)
    (ha : ConstantAcc.tp_a_coeff st ≠ 0) :
    ConstantAcc.tp_a_coeff st * d ^ 2 + ConstantAcc.tp_b_coeff st * d +
      ConstantAcc.tp_c_coeff st = 0 := by
  have hs : Real.sqrt (ConstantAcc.tp_disc st) ^ 2 =
      ConstantAcc.tp_b_coeff st ^ 2 -
        4 * ConstantAcc.tp_a_coeff st * ConstantAcc.tp_c_coeff st := by
    rw [Real.sq_sqrt hdisc]; rfl
  have hplus : ConstantAcc.tp_a_coeff st * ConstantAcc.tp_dt01_plus st ^ 2 +
      ConstantAcc.tp_b_coeff st * ConstantAcc.tp_dt01_plus st +
      ConstantAcc.tp_c_coeff st = 0 := by
    unfold ConstantAcc.tp_dt01_plus
    field_simp
    linear_combination 2 * ConstantAcc.tp_a_coeff st ^ 2 * hs
  have hminus : ConstantAcc.tp_a_coeff st * ConstantAcc.tp_dt01_minus st ^ 2 +
      ConstantAcc.tp_b_coeff st * ConstantAcc.tp_dt01_minus st +
      ConstantAcc.tp_c_coeff st = 0 := by
    unfold ConstantAcc.tp_dt01_minus
    field_simp
    linear_combination 2 * ConstantAcc.tp_a_coeff st ^ 2 * hs
  unfold ConstantAcc.tp_root at h
  split_ifs at h with h1 h2 h3 <;> simp only [Option.some.injEq] at h <;> subst h
  · rcases min_choice (ConstantAcc.tp_dt01_plus st) (ConstantAcc.tp_dt01_minus st)
      with hm | hm <;> rw [hm]
    · exact hplus
    · exact hminus
  · exact hplus
  · exact hminus

/-- Segment-duration list of a computed jerk-limited plan, by regime
(the segment structure described in spec §4.3: 4, 6, 6 and 7 segments for
cases 0-3, the no-motion regime having none). -/
def cjDurations (st : ConstantJerk.State) : List ℝ :=
  if st.case = -1 then []
  else if st.case = 0 then [st.t1, 2 * st.t1, st.t1]
  else if st.case = 1 then [st.t1, st.t1, st.t2, st.t1, st.t1]
  else if st.case = 2 then [st.t1, st.t2, 2 * st.t1, st.t2, st.t1]
  else [st.t1, st.t2, st.t1, st.t3, st.t1, st.t2, st.t1]

/-- In the jerk planner's Case 3 the cruise duration `t3` is nonnegative:
the branch condition `(t1 + t2_case2)*amax >= vmax` forces
`|dp| >= vmax*t1 + vmax^2/amax`. -/
lemma cj_case3_t3_nonneg (u amax vmax jmax : ℝ) (hA : 0 < amax) (hV : 0 < vmax)
    (hJ : 0 < jmax) (hu : 0 ≤ u)
    (hcond : vmax ≤ (amax / jmax + (-1.5 * (amax / jmax) +
        Real.sqrt (4 * u / amax + 1 / 3 * (amax / jmax) ^ 2) / 2)) * amax) :
    0 ≤ u / vmax - 2 * (amax / jmax) - (vmax / amax - amax / jmax) := by
  set t1 := amax / jmax with ht1def
  have ht1 : 0 < t1 := by rw [ht1def]; positivity
  set R := 4 * u / amax + 1 / 3 * t1 ^ 2 with hRdef
  have hR : 0 ≤ R := by rw [hRdef, ht1def]; positivity
  have hB : (0:ℝ) ≤ 2 * vmax / amax + t1 := by positivity
  clear_value t1 R
  have hBle : 2 * vmax / amax + t1 ≤ Real.sqrt R := by
    have h2 : 2 * vmax + t1 * amax ≤ Real.sqrt R * amax := by nlinarith [hcond]
    calc 2 * vmax / amax + t1 = (2 * vmax + t1 * amax) / amax := by field_simp
      _ ≤ Real.sqrt R * amax / amax := by gcongr
      _ = Real.sqrt R := by field_simp
  have hB2 : (2 * vmax / amax + t1) ^ 2 ≤ R := (Real.le_sqrt hB hR).mp hBle
  have hx : (2 * vmax + amax * t1) ^ 2 ≤ amax * (4 * u) + amax ^ 2 * t1 ^ 2 / 3 := by
    have e1 : (2 * vmax + amax * t1) ^ 2 =
        amax ^ 2 * (2 * vmax / amax + t1) ^ 2 := by field_simp; ring
    have e3 : amax ^ 2 * R = amax * (4 * u) + amax ^ 2 * t1 ^ 2 / 3 := by
      rw [hRdef]; field_simp; ring
    rw [e1, ← e3]
    exact mul_le_mul_of_nonneg_left hB2 (by positivity)
  have hdpgeA : vmax * t1 * amax + vmax ^ 2 ≤ u * amax := by
    nlinarith [hx, sq_nonneg (amax * t1)]
  have hgoal : t1 + vmax / amax ≤ u / vmax := by
    rw [le_div_iff₀ hV]
    have e : (t1 + vmax / amax) * vmax = (vmax * t1 * amax + vmax ^ 2) / amax := by
      field_simp; ring
    rw [e, div_le_iff₀ hA]
    exact hdpgeA
  linarith [hgoal]

/-! ## Claim C5 -/

/-- Shape of a successful trapezoidal `calc_trajectory`: all stored phase
durations are nonnegative and the returned duration is their sum. -/
lemma tp_calc_ok_durations : ∀ st st' T w,
    ConstantAcc.calc_trajectory st = ⟨st', .ok T, w⟩ →
    (∀ d ∈ st'.dt, 0 ≤ d) ∧ T = st'.dt.sum ∧
    (st'.case = -1 → st'.pe = st'.p0 ∧ st'.ve = st'.v0) ∧
    st'.trajectory_calced = true := by
  intro st st' T w h
  unfold ConstantAcc.calc_trajectory at h
  split_ifs at h with hp hc hi hdp hdv hdisc
  · simp at h
  · simp at h
  · simp at h
  · -- no-motion regime
    simp only [ConstantAcc.CalcResult.mk.injEq, Except.ok.injEq] at h
    obtain ⟨h1, h2, -⟩ := h
    subst h1; subst h2
    unfold ConstantAcc.tp_dp at hdp
    refine ⟨by simp, by simp, fun _ => ?_, by simp⟩
    constructor
    · simpa using sub_eq_zero.mp hdp
    · simpa using sub_eq_zero.mp hdv
  · simp at h
  · simp at h
  · rcases hroot : ConstantAcc.tp_root st with - | d
    · rw [hroot] at h; simp at h
    · rw [hroot] at h
      have hdpos := tp_root_pos hroot
      dsimp only at h
      unfold ConstantAcc.tp_case1_finish at h
      dsimp only at h
      split_ifs at h with hv1 hov h12 h12'
      · simp only [ConstantAcc.CalcResult.mk.injEq, Except.ok.injEq] at h
        obtain ⟨h1, h2, -⟩ := h
        subst h1; subst h2
        refine ⟨?_, by simp, by simp, by simp⟩
        intro x hx
        simp only [List.mem_cons, List.not_mem_nil, or_false] at hx
        rcases hx with rfl | rfl
        · exact hdpos.le
        · exact abs_nonneg _
      · simp at h
      · simp only [ConstantAcc.CalcResult.mk.injEq, Except.ok.injEq] at h
        obtain ⟨h1, h2, -⟩ := h
        subst h1; subst h2
        refine ⟨?_, by simp, by simp, by simp⟩
        intro x hx
        simp only [List.mem_cons, List.not_mem_nil, or_false] at hx
        rcases hx with rfl | rfl | rfl
        · exact abs_nonneg _
        · exact not_lt.mp h12
        · exact abs_nonneg _
      · simp at h
      · simp only [ConstantAcc.CalcResult.mk.injEq, Except.ok.injEq] at h
        obtain ⟨h1, h2, -⟩ := h
        subst h1; subst h2
        refine ⟨?_, by simp, by simp, by simp⟩
        intro x hx
        simp only [List.mem_cons, List.not_mem_nil, or_false] at hx
        rcases hx with rfl | rfl | rfl
        · exact abs_nonneg _
        · exact not_lt.mp h12'
        · exact abs_nonneg _
/-- Shape of a successful jerk-limited `calc_trajectory`: the returned
duration is the sum of the regime's segment durations, `t1 ≥ 0`, and the
Case-1 `t2` and Case-3 `t3` are nonnegative. -/
lemma cj_calc_ok_durations : ∀ st st' T,
    ConstantJerk.calc_trajectory st = (st', .ok T) →
    0 < st.amax → 0 < st.vmax → 0 < st.jmax →
    T = (cjDurations st').sum ∧ 0 ≤ st'.t1 ∧
    (st'.case = 1 → 0 ≤ st'.t2) ∧ (st'.case = 3 → 0 ≤ st'.t3) := by
  intro st st' T h hA hV hJ
  unfold ConstantJerk.calc_trajectory at h
  dsimp only at h
  split_ifs at h with hp hc hdp hdv hacc hvel hvel2
  · simp at h
  · simp at h
  · simp at h
  · -- no-motion regime
    simp only [Prod.mk.injEq, Except.ok.injEq] at h
    obtain ⟨h1, h2⟩ := h
    subst h1; subst h2
    simp [cjDurations]
  · -- case 0
    simp only [Prod.mk.injEq, Except.ok.injEq] at h
    obtain ⟨h1, h2⟩ := h
    subst h1; subst h2
    have ht1 : 0 ≤ ConstantJerk.cj_t1seed st :=
      Real.rpow_nonneg (by positivity) _
    refine ⟨by simp [cjDurations]; ring, ht1, by simp, by simp⟩
  · -- case 1
    simp only [Prod.mk.injEq, Except.ok.injEq] at h
    obtain ⟨h1, h2⟩ := h
    subst h1; subst h2
    have hx : (0:ℝ) < |st.pe - st.p0| / 2 / st.jmax := by
      have : (0:ℝ) < |st.pe - st.p0| := abs_pos.mpr hdp
      positivity
    have ht2 : 0 ≤ |st.pe - st.p0| / st.vmax -
        2 * Real.sqrt (st.vmax / st.jmax) := by
      set x := |st.pe - st.p0| / 2 / st.jmax with hxdef
      set y := st.vmax / st.jmax with hydef
      have hy : (0:ℝ) < y := by positivity
      have hcond : y ≤ x ^ ((2:ℝ)/3) := by
        have h23 : x ^ ((2:ℝ)/3) =
            x ^ ((1:ℝ)/3) * x ^ ((1:ℝ)/3) := by
          rw [← Real.rpow_add hx]; norm_num
        have := not_lt.mp hvel
        rw [ConstantJerk.cj_t1seed] at this
        rw [h23, hydef]
        rw [div_le_iff₀ hJ]
        nlinarith [this]
      have hcube : y ^ 3 ≤ x ^ 2 := by
        have h1 : (x ^ ((2:ℝ)/3)) ^ (3:ℕ) = x ^ 2 := by
          rw [← Real.rpow_natCast (x ^ ((2:ℝ)/3)) 3, ← Real.rpow_mul hx.le]
          norm_num
        calc y ^ 3 ≤ (x ^ ((2:ℝ)/3)) ^ 3 := by
              exact pow_le_pow_left₀ hy.le hcond 3
          _ = x ^ 2 := h1
      have habs : |st.pe - st.p0| = 2 * st.jmax * x := by
        rw [hxdef]; field_simp
      have hsq : Real.sqrt y ≤ x / y := by
        rw [Real.sqrt_le_left (by positivity)]
        rw [div_pow, le_div_iff₀ (by positivity)]
        nlinarith [hcube, hy]
      rw [habs, sub_nonneg, hydef]
      have hxy : 2 * st.jmax * x / st.vmax = 2 * (x / y) := by
        rw [hydef]; field_simp; ring
      rw [hxy, ← hydef]
      nlinarith [hsq]
    refine ⟨by simp [cjDurations]; ring, Real.sqrt_nonneg _, fun _ => ht2,
      by simp⟩
  · -- case 2
    simp only [Prod.mk.injEq, Except.ok.injEq] at h
    obtain ⟨h1, h2⟩ := h
    subst h1; subst h2
    refine ⟨by simp [cjDurations]; ring, by positivity, by simp, by simp⟩
  · -- case 3
    simp only [Prod.mk.injEq, Except.ok.injEq] at h
    obtain ⟨h1, h2⟩ := h
    subst h1; subst h2
    have ht1 : (0:ℝ) < st.amax / st.jmax := by positivity
    have ht3 : 0 ≤ |st.pe - st.p0| / st.vmax - 2 * (st.amax / st.jmax) -
        (st.vmax / st.amax - st.amax / st.jmax) :=
      cj_case3_t3_nonneg |st.pe - st.p0| st.amax st.vmax st.jmax hA hV hJ
        (abs_nonneg _) (not_lt.mp hvel2)
    refine ⟨by simp [cjDurations]; ring, ht1.le, by simp, fun _ => ?_⟩
    linarith [ht3]

/-- C5 (amended): every trapezoidal phase duration is nonnegative and the
returned total is their sum; for the jerk-limited planner the returned
total is the sum of the regime's segment durations and `t1` is
nonnegative, as are `t2` in Case 1 and `t3` in Case 3 — but the plateau
duration `t2` of Cases 2 and 3 can be negative (see the counterexample),
so not every jerk-limited phase duration is `≥ 0`. -/
theorem phase_durations_sum_nonneg :
    (∀ st st' T w, ConstantAcc.calc_trajectory st = ⟨st', .ok T, w⟩ →
      (∀ d ∈ st'.dt, 0 ≤ d) ∧ T = st'.dt.sum) ∧
    (∀ st st' T, ConstantJerk.calc_trajectory st = (st', .ok T) →
      0 < st.amax → 0 < st.vmax → 0 < st.jmax →
      T = (cjDurations st').sum ∧ 0 ≤ st'.t1 ∧
      (st'.case = 1 → 0 ≤ st'.t2) ∧ (st'.case = 3 → 0 ≤ st'.t3)) :=
  ⟨fun st st' T w h => ⟨(tp_calc_ok_durations st st' T w h).1,
    (tp_calc_ok_durations st st' T w h).2.1⟩, cj_calc_ok_durations⟩

/-- Counterexample to C5 as stated: at `p0 = 0, pe = 2, amax = 1,
vmax = 5, jmax = 1` the jerk planner succeeds in Case 2 but its plateau
duration `t2 = -1.5 + sqrt(8 + 1/3)/2` is negative. -/
theorem phase_durations_counterexample :
    (ConstantJerk.calc_trajectory
        { p0 := 0, pe := 2, vmax := 5, amax := 1, jmax := 1,
          point_setted := true, constraints_setted := true,
          initial_state_setted := true }).1.case = 2 ∧
    (ConstantJerk.calc_trajectory
        { p0 := 0, pe := 2, vmax := 5, amax := 1, jmax := 1,
          point_setted := true, constraints_setted := true,
          initial_state_setted := true }).1.t2 < 0 := by
  have hseed : ConstantJerk.cj_t1seed
      { p0 := 0, pe := 2, vmax := 5, amax := 1, jmax := 1,
        point_setted := true, constraints_setted := true,
        initial_state_setted := true } = 1 := by
    unfold ConstantJerk.cj_t1seed
    norm_num
  unfold ConstantJerk.calc_trajectory
  rw [hseed]
  norm_num
  have h25 : Real.sqrt 25 = 5 := by
    rw [show (25:ℝ) = 5 ^ 2 by norm_num, Real.sqrt_sq (by norm_num)]
  have h3 : (5:ℝ) / 3 < Real.sqrt 3 := by
    rw [Real.lt_sqrt (by norm_num)]
    norm_num
  have h3pos : (0:ℝ) < Real.sqrt 3 := Real.sqrt_pos.mpr (by norm_num)
  have ht2neg : -(3/2 : ℝ) + Real.sqrt 25 / Real.sqrt 3 / 2 < 0 := by
    rw [h25, div_div]
    have h5 : (5:ℝ) / (Real.sqrt 3 * 2) < 3 / 2 := by
      rw [div_lt_iff₀ (by positivity)]
      nlinarith [h3]
    linarith
  have hcond : (1:ℝ) + (-(3 / 2) + Real.sqrt 25 / Real.sqrt 3 / 2) < 5 := by
    linarith
  rw [if_pos hcond]
  refine ⟨rfl, ?_⟩
  simpa using ht2neg

/-! ## Concrete computed plans used by witnesses -/

/-- A concrete trapezoidal request: rest-to-rest, `p0 = 0, pe = 4`,
`acc = dec = 1`, `vmax = 10` (Case 0, all arithmetic exact). -/
def accW : ConstantAcc.State :=
  { p0 := 0, pe := 4, v0 := 0, ve := 0, vmax := 10, amax_accel := 1,
    amax_decel := 1, point_setted := true, constraints_setted := true,
    initial_state_setted := true }

/-- The plan `calc_trajectory` computes for `accW`: accelerate 2 s,
decelerate 2 s. -/
def accWPlan : ConstantAcc.State :=
  { accW with dt := [2, 2], a := [1, -1], v := [0, 2], p := [0, 2],
              case := 0, trajectory_calced := true }

lemma accW_disc : ConstantAcc.tp_disc accW = 16 := by
  unfold ConstantAcc.tp_disc ConstantAcc.tp_b_coeff ConstantAcc.tp_a_coeff
    ConstantAcc.tp_c_coeff ConstantAcc.tp_acc ConstantAcc.tp_dec
    ConstantAcc.tp_sign ConstantAcc.tp_dp accW
  norm_num

lemma accW_root : ConstantAcc.tp_root accW = some 2 := by
  have h16 : Real.sqrt (ConstantAcc.tp_disc accW) = 4 := by
    rw [accW_disc, show (16:ℝ) = 4 ^ 2 by norm_num, Real.sqrt_sq (by norm_num)]
  have hplus : ConstantAcc.tp_dt01_plus accW = 2 := by
    unfold ConstantAcc.tp_dt01_plus
    rw [h16]
    unfold ConstantAcc.tp_b_coeff ConstantAcc.tp_a_coeff ConstantAcc.tp_acc
      ConstantAcc.tp_dec ConstantAcc.tp_sign ConstantAcc.tp_dp accW
    norm_num
  have hminus : ConstantAcc.tp_dt01_minus accW = -2 := by
    unfold ConstantAcc.tp_dt01_minus
    rw [h16]
    unfold ConstantAcc.tp_b_coeff ConstantAcc.tp_a_coeff ConstantAcc.tp_acc
      ConstantAcc.tp_dec ConstantAcc.tp_sign ConstantAcc.tp_dp accW
    norm_num
  unfold ConstantAcc.tp_root
  rw [hplus, hminus]
  norm_num

/-- Evaluation of the trapezoidal planner on `accW`. -/
lemma accW_calc :
    ConstantAcc.calc_trajectory accW = ⟨accWPlan, .ok 4, 0⟩ := by
  unfold ConstantAcc.calc_trajectory
  rw [accW_root]
  rw [if_neg (by norm_num [accW, ConstantAcc.tp_dp] :
        ¬ConstantAcc.tp_dp accW = 0),
      if_neg (by rw [accW_disc]; norm_num : ¬ConstantAcc.tp_disc accW ≤ 0)]
  rw [if_neg (show ¬(accW.point_setted = false) by simp [accW])]
  rw [if_neg (show ¬(accW.constraints_setted = false) by simp [accW])]
  rw [if_neg (show ¬(accW.initial_state_setted = false) by simp [accW])]
  dsimp only
  rw [if_pos]
  · unfold ConstantAcc.v_integ ConstantAcc.p_integ ConstantAcc.tp_acc
      ConstantAcc.tp_dec ConstantAcc.tp_sign ConstantAcc.tp_dp
    simp only [accW, accWPlan, ConstantAcc.CalcResult.mk.injEq,
      ConstantAcc.State.mk.injEq]
    norm_num
  · unfold ConstantAcc.v_integ ConstantAcc.tp_acc ConstantAcc.tp_sign
      ConstantAcc.tp_dp accW
    norm_num

/-- A concrete jerk-limited request landing in Case 0:
`p0 = 0, pe = 2, amax = 2, vmax = 2, jmax = 1` (seed `t1 = 1`). -/
def cjW : ConstantJerk.State :=
  { p0 := 0, pe := 2, vmax := 2, amax := 2, jmax := 1,
    point_setted := true, constraints_setted := true,
    initial_state_setted := true }

/-- The plan `calc_trajectory` computes for `cjW`. -/
def cjWPlan : ConstantJerk.State :=
  { cjW with t1 := 1, case := 0, te := 4, trajectory_calced := true,
             has_t1 := true, has_case := true }

/-- Evaluation of the jerk planner on `cjW`. -/
lemma cjW_calc : ConstantJerk.calc_trajectory cjW = (cjWPlan, .ok 4) := by
  have hseed : ConstantJerk.cj_t1seed cjW = 1 := by
    unfold ConstantJerk.cj_t1seed cjW
    norm_num
  unfold ConstantJerk.calc_trajectory
  rw [hseed]
  simp only [cjW, cjWPlan, Prod.mk.injEq, ConstantJerk.State.mk.injEq]
  norm_num

/-- Witness for C5 at the concrete computed plans `accWPlan`, `cjWPlan`. -/
theorem phase_durations_sum_nonneg_witness :
    ((∀ d ∈ accWPlan.dt, 0 ≤ d) ∧ (4:ℝ) = accWPlan.dt.sum) ∧
    ((4:ℝ) = (cjDurations cjWPlan).sum ∧ 0 ≤ cjWPlan.t1 ∧
      (cjWPlan.case = 1 → 0 ≤ cjWPlan.t2) ∧
      (cjWPlan.case = 3 → 0 ≤ cjWPlan.t3)) :=
  ⟨phase_durations_sum_nonneg.1 accW accWPlan 4 0 accW_calc,
   phase_durations_sum_nonneg.2 cjW cjWPlan 4 cjW_calc
     (by norm_num [cjW]) (by norm_num [cjW]) (by norm_num [cjW])⟩

/-! ## Claim C3 -/

/-- C3: for every jerk-limited planning request with nonzero displacement
(and the setters called), `calc_trajectory` selects the regime tag and the
total duration exactly as described by the four-case ladder of the
specification (`specCaseLadder`), and returns that total duration. -/
theorem jerk_case_ladder (st : ConstantJerk.State)
    (h1 : st.point_setted = true) (h2 : st.constraints_setted = true)
    (hdp : st.pe - st.p0 ≠ 0) :
    (ConstantJerk.calc_trajectory st).1.case =
      (specCaseLadder (st.pe - st.p0) st.amax st.vmax st.jmax).1 ∧
    (ConstantJerk.calc_trajectory st).2 =
      .ok (specCaseLadder (st.pe - st.p0) st.amax st.vmax st.jmax).2 ∧
    (ConstantJerk.calc_trajectory st).1.te =
      (specCaseLadder (st.pe - st.p0) st.amax st.vmax st.jmax).2 := by
  have ht1 : (|st.pe - st.p0| / (2 * st.jmax)) ^ ((1 : ℝ) / 3) =
      ConstantJerk.cj_t1seed st := by
    rw [ConstantJerk.cj_t1seed, div_div]
  have hsq : ∀ x : ℝ, x ^ 2 * st.jmax = x * st.jmax * x := by intro x; ring
  have hth : ∀ x : ℝ, x ^ 2 / 3 = 1 / 3 * x ^ 2 := by intro x; ring
  unfold ConstantJerk.calc_trajectory specCaseLadder
  rw [h1, h2]
  simp only [ht1, hsq, hth, if_neg hdp]
  split_ifs with hA hV hV' hC <;> simp_all

/-- Witness for C3 at a concrete request: `p0 = 0, pe = 2, amax = 2,
vmax = 2, jmax = 1` (here the seed is `1^(1/3) = 1` and Case 0 applies). -/
theorem jerk_case_ladder_witness :
    (ConstantJerk.calc_trajectory
        { p0 := 0, pe := 2, vmax := 2, amax := 2, jmax := 1,
          point_setted := true, constraints_setted := true,
          initial_state_setted := true }).1.case =
      (specCaseLadder 2 2 2 1).1 ∧
    (ConstantJerk.calc_trajectory
        { p0 := 0, pe := 2, vmax := 2, amax := 2, jmax := 1,
          point_setted := true, constraints_setted := true,
          initial_state_setted := true }).2 =
      .ok (specCaseLadder 2 2 2 1).2 ∧
    (ConstantJerk.calc_trajectory
        { p0 := 0, pe := 2, vmax := 2, amax := 2, jmax := 1,
          point_setted := true, constraints_setted := true,
          initial_state_setted := true }).1.te =
      (specCaseLadder 2 2 2 1).2 := by
  have h := jerk_case_ladder
    { p0 := 0, pe := 2, vmax := 2, amax := 2, jmax := 1,
      point_setted := true, constraints_setted := true,
      initial_state_setted := true } rfl rfl (by norm_num)
  simpa using h

/-! ## Claim C1 -/

/-- Jerk value returned by `get_point` outside the plan window: `0` in the
no-motion regime, otherwise `±jmax` (the source sets `j = jmax` and flips
its sign when `pe < ps` in every out-of-window branch). -/
def cjClampJerk (st : ConstantJerk.State) : ℝ :=
  if st.case = -1 then 0
  else if st.pe < st.p0 then -st.jmax else st.jmax

/-- Time offset from which `get_point` clamps to the end state: the total
duration `te` in cases -1, 0, 1 and 2, but `4*t1 + 2*2*t2 + t3` in Case 3
(the source's in-window test reads `tau < 4*t1+2*2*t2+t3`, exceeding
`te = 4*t1+2*t2+t3` by `2*t2`). -/
def cjClampBound (st : ConstantJerk.State) : ℝ :=
  if st.case = 3 then 4 * st.t1 + 2 * 2 * st.t2 + st.t3 else st.te

/-- C1 (amended): for every successfully computed plan and `t < t0`, the
trapezoidal evaluator returns the start boundary state with zero
acceleration, and the jerk-limited evaluator returns the start position
with zero velocity and acceleration but jerk `±jmax` (zero only in the
no-motion regime); for `t ≥ t0 + totalDuration` the trapezoidal evaluator
returns the end boundary state with zero acceleration, while the
jerk-limited evaluator clamps to the end state (jerk `±jmax`) only from
`t0 + cjClampBound` on — which equals `t0 + totalDuration` except in
Case 3, where the evaluator keeps extrapolating until
`t0 + 4*t1 + 4*t2 + t3`. -/
theorem evaluator_clamp_outside_window :
    (∀ st st' T w t, ConstantAcc.calc_trajectory st = ⟨st', .ok T, w⟩ →
      (t < st'.t0 → ConstantAcc.get_point st' t = (st'.p0, st'.v0, 0)) ∧
      (st'.t0 + T ≤ t → ConstantAcc.get_point st' t = (st'.pe, st'.ve, 0))) ∧
    (∀ st st' T t, ConstantJerk.calc_trajectory st = (st', .ok T) →
      (t < st'.t0 → ConstantJerk.get_point st' t =
        some (st'.p0, if st'.case = -1 then st'.v0 else 0, 0, cjClampJerk st')) ∧
      (st'.t0 ≤ t → st'.t0 + cjClampBound st' ≤ t →
        ConstantJerk.get_point st' t =
          some (st'.pe, if st'.case = -1 then st'.v0 else 0, 0,
            cjClampJerk st'))) := by
  constructor
  · intro st st' T w t h
    obtain ⟨hnn, hsum, hcase, -⟩ := tp_calc_ok_durations st st' T w h
    have hT0 : 0 ≤ T := by rw [hsum]; exact List.sum_nonneg hnn
    constructor
    · intro ht
      unfold ConstantAcc.get_point
      dsimp only
      by_cases hcc : st'.case = -1
      · rw [if_pos hcc]
      · rw [if_neg hcc, if_pos (show t - st'.t0 < 0 by linarith)]
    · intro ht
      unfold ConstantAcc.get_point
      dsimp only
      by_cases hcc : st'.case = -1
      · rw [if_pos hcc]
        obtain ⟨he, hv⟩ := hcase hcc
        rw [he, hv]
      · rw [if_neg hcc, if_neg (show ¬(t - st'.t0 < 0) by push_neg; linarith),
            if_pos (show st'.dt.sum ≤ t - st'.t0 by rw [← hsum]; linarith)]
  · intro st st' T t h
    unfold ConstantJerk.calc_trajectory at h
    dsimp only at h
    split_ifs at h with hp hc hdp hdv hacc hvel hvel2
    · simp at h
    · simp at h
    · simp at h
    · -- no-motion regime
      simp only [Prod.mk.injEq, Except.ok.injEq] at h
      obtain ⟨h1, h2⟩ := h
      subst h1; subst h2
      have hpe : st.pe = st.p0 := sub_eq_zero.mp hdp
      constructor
      · intro ht
        unfold ConstantJerk.get_point
        dsimp only
        rw [if_pos (by exact ⟨rfl, rfl⟩)]
        simp [cjClampJerk]
      · intro ht0 ht
        unfold ConstantJerk.get_point
        dsimp only
        rw [if_pos (by exact ⟨rfl, rfl⟩)]
        simp [cjClampJerk, hpe]
    · -- case 0
      simp only [Prod.mk.injEq, Except.ok.injEq] at h
      obtain ⟨h1, h2⟩ := h
      subst h1; subst h2
      constructor
      · intro ht
        dsimp only at ht
        have hA : t - st.t0 < 0 := by linarith
        unfold ConstantJerk.get_point
        dsimp only
        rw [if_neg (by simp), if_neg (by simp), if_pos rfl, if_pos hA]
        simp [cjClampJerk]
      · intro ht0 ht
        rw [show cjClampBound _ = 4 * ConstantJerk.cj_t1seed st by
              simp [cjClampBound]] at ht
        dsimp only at ht0 ht
        have hA : ¬(t - st.t0 < 0) := by push_neg; linarith
        have hB : ¬(t - st.t0 < 4 * ConstantJerk.cj_t1seed st) := by
          push_neg; linarith
        unfold ConstantJerk.get_point
        dsimp only
        rw [if_neg (by simp), if_neg (by simp), if_pos rfl, if_neg hA,
            if_neg hB]
        simp [cjClampJerk]
    · -- case 1
      simp only [Prod.mk.injEq, Except.ok.injEq] at h
      obtain ⟨h1, h2⟩ := h
      subst h1; subst h2
      constructor
      · intro ht
        dsimp only at ht
        have hA : t - st.t0 < 0 := by linarith
        unfold ConstantJerk.get_point
        dsimp only
        rw [if_neg (by simp), if_neg (by simp), if_neg (by simp), if_pos rfl,
            if_pos hA]
        simp [cjClampJerk]
      · intro ht0 ht
        rw [show cjClampBound _ = 4 * Real.sqrt (st.vmax / st.jmax) +
              (|st.pe - st.p0| / st.vmax -
                2 * Real.sqrt (st.vmax / st.jmax)) by
              simp [cjClampBound]] at ht
        dsimp only at ht0 ht
        have hA : ¬(t - st.t0 < 0) := by push_neg; linarith
        have hB : ¬(t - st.t0 < 4 * Real.sqrt (st.vmax / st.jmax) +
            (|st.pe - st.p0| / st.vmax -
              2 * Real.sqrt (st.vmax / st.jmax))) := by
          push_neg; linarith
        unfold ConstantJerk.get_point
        dsimp only
        rw [if_neg (by simp), if_neg (by simp), if_neg (by simp), if_pos rfl,
            if_neg hA, if_neg hB]
        simp [cjClampJerk]
    · -- case 2
      simp only [Prod.mk.injEq, Except.ok.injEq] at h
      obtain ⟨h1, h2⟩ := h
      subst h1; subst h2
      constructor
      · intro ht
        dsimp only at ht
        have hA : t - st.t0 < 0 := by linarith
        unfold ConstantJerk.get_point
        dsimp only
        rw [if_neg (by simp), if_neg (by simp), if_neg (by simp),
            if_neg (by simp), if_pos rfl, if_pos hA]
        simp [cjClampJerk]
      · intro ht0 ht
        rw [show cjClampBound _ = 4 * (st.amax / st.jmax) +
              2 * (-1.5 * (st.amax / st.jmax) +
                Real.sqrt (4 * |st.pe - st.p0| / st.amax +
                  1 / 3 * (st.amax / st.jmax) ^ 2) / 2) by
              simp [cjClampBound]] at ht
        dsimp only at ht0 ht
        have hA : ¬(t - st.t0 < 0) := by push_neg; linarith
        have hB : ¬(t - st.t0 < 4 * (st.amax / st.jmax) +
            2 * (-1.5 * (st.amax / st.jmax) +
              Real.sqrt (4 * |st.pe - st.p0| / st.amax +
                1 / 3 * (st.amax / st.jmax) ^ 2) / 2)) := by
          push_neg; linarith
        unfold ConstantJerk.get_point
        dsimp only
        rw [if_neg (by simp), if_neg (by simp), if_neg (by simp),
            if_neg (by simp), if_pos rfl, if_neg hA, if_neg hB]
        simp [cjClampJerk]
    · -- case 3
      simp only [Prod.mk.injEq, Except.ok.injEq] at h
      obtain ⟨h1, h2⟩ := h
      subst h1; subst h2
      constructor
      · intro ht
        dsimp only at ht
        have hA : t - st.t0 < 0 := by linarith
        unfold ConstantJerk.get_point
        dsimp only
        rw [if_neg (by simp), if_neg (by simp), if_neg (by simp),
            if_neg (by simp), if_neg (by simp), if_pos rfl, if_pos hA]
        simp [cjClampJerk]
      · intro ht0 ht
        rw [show cjClampBound _ = 4 * (st.amax / st.jmax) +
              2 * 2 * (st.vmax / st.amax - st.amax / st.jmax) +
              (|st.pe - st.p0| / st.vmax - 2 * (st.amax / st.jmax) -
                (st.vmax / st.amax - st.amax / st.jmax)) by
              simp [cjClampBound]] at ht
        dsimp only at ht0 ht
        have hA : ¬(t - st.t0 < 0) := by push_neg; linarith
        have hB : ¬(t - st.t0 < 4 * (st.amax / st.jmax) +
            2 * 2 * (st.vmax / st.amax - st.amax / st.jmax) +
            (|st.pe - st.p0| / st.vmax - 2 * (st.amax / st.jmax) -
              (st.vmax / st.amax - st.amax / st.jmax))) := by
          push_neg; linarith
        unfold ConstantJerk.get_point
        dsimp only
        rw [if_neg (by simp), if_neg (by simp), if_neg (by simp),
            if_neg (by simp), if_neg (by simp), if_pos rfl, if_neg hA,
            if_neg hB]
        simp [cjClampJerk]

/-- Counterexample to C1 as stated: the successfully computed Case-0 jerk
plan `cjWPlan` queried at `t = -1 < t0 = 0` returns jerk `jmax = 1`, not
zero. -/
theorem evaluator_clamp_counterexample :
    ConstantJerk.calc_trajectory cjW = (cjWPlan, .ok 4) ∧
    (-1 : ℝ) < cjWPlan.t0 ∧
    ConstantJerk.get_point cjWPlan (-1) = some (0, 0, 0, 1) ∧
    (1 : ℝ) ≠ 0 := by
  refine ⟨cjW_calc, by norm_num [cjWPlan, cjW], ?_, by norm_num⟩
  unfold ConstantJerk.get_point cjWPlan cjW
  norm_num

/-- Witness for C1 at the concrete plans `accWPlan` (trapezoidal) and
`cjWPlan` (jerk-limited, Case 0), at query times `-1` and `5`. -/
theorem evaluator_clamp_witness :
    (ConstantAcc.get_point accWPlan (-1) = (accWPlan.p0, accWPlan.v0, 0) ∧
     ConstantAcc.get_point accWPlan 5 = (accWPlan.pe, accWPlan.ve, 0)) ∧
    (ConstantJerk.get_point cjWPlan (-1) =
      some (cjWPlan.p0, 0, 0, cjClampJerk cjWPlan) ∧
     ConstantJerk.get_point cjWPlan 5 =
      some (cjWPlan.pe, 0, 0, cjClampJerk cjWPlan)) := by
  have h1 := evaluator_clamp_outside_window.1 accW accWPlan 4 0 (-1) accW_calc
  have h2 := evaluator_clamp_outside_window.1 accW accWPlan 4 0 5 accW_calc
  have h3 := evaluator_clamp_outside_window.2 cjW cjWPlan 4 (-1) cjW_calc
  have h4 := evaluator_clamp_outside_window.2 cjW cjWPlan 4 5 cjW_calc
  refine ⟨⟨h1.1 (by norm_num [accWPlan, accW]),
          h2.2 (by norm_num [accWPlan, accW])⟩, ?_, ?_⟩
  · have := h3.1 (by norm_num [cjWPlan, cjW])
    simpa [cjWPlan, cjW] using this
  · have := h4.2 (by norm_num [cjWPlan, cjW])
      (by norm_num [cjWPlan, cjW, cjClampBound])
    simpa [cjWPlan, cjW] using this

/-! ## Claim C8 -/

/-- A trapezoidal planner state on which the three setters (or `init`)
have run but `calc_trajectory` has not: regime tag still `0`, plan lists
still empty. -/
def tpInitW : ConstantAcc.State :=
  { p0 := 0, pe := 10, vmax := 2, amax_accel := 1, amax_decel := 1,
    point_setted := true, constraints_setted := true,
    initial_state_setted := true }

/-- C8 (amended): before `calc_trajectory`, the jerk-limited planner's
`get_point` is an error (the `hasattr(self, 't1')` guard fires), but the
trapezoidal planner's `get_point` has no such guard and silently returns
a boundary-state tuple computed from whatever inputs are set — the start
state for `t < t0`, the end state otherwise. -/
theorem query_before_compute :
    (∀ (st : ConstantJerk.State) (t : ℝ), st.has_t1 = false →
      st.has_case = false → ConstantJerk.get_point st t = none) ∧
    (∀ (st : ConstantAcc.State) (t : ℝ), st.case ≠ -1 → st.dt = [] →
      ConstantAcc.get_point st t =
        if t - st.t0 < 0 then (st.p0, st.v0, 0) else (st.pe, st.ve, 0)) := by
  constructor
  · intro st t h1 h2
    unfold ConstantJerk.get_point
    dsimp only
    rw [if_neg (by simp [h2]), if_pos h1]
  · intro st t hcase hdt
    unfold ConstantAcc.get_point
    dsimp only
    rw [if_neg hcase, hdt]
    simp only [List.sum_nil]
    split_ifs with h1 h2
    · rfl
    · rfl
    · exfalso
      push_neg at h1 h2
      linarith

/-- Counterexample to C8 as stated: a trapezoidal planner initialised via
`init` (but never computed) answers `get_point(5)` with the kinematic
state `(10, 0, 0)` instead of failing. -/
theorem query_before_compute_counterexample :
    ConstantAcc.init 0 10 1 2 0 0 0 none = .ok tpInitW ∧
    tpInitW.trajectory_calced = false ∧
    ConstantAcc.get_point tpInitW 5 = (10, 0, 0) := by
  refine ⟨?_, rfl, ?_⟩
  · unfold ConstantAcc.init ConstantAcc.set_constraints ConstantAcc.set_point
      ConstantAcc.set_initial
    norm_num [tpInitW]
  · unfold ConstantAcc.get_point tpInitW
    norm_num

/-- Witness for C8: the initialised-but-uncomputed jerk state `cjW`
errors on `get_point 3`; the trapezoidal `tpInitW` returns the clamped
tuple at `t = 5`. -/
theorem query_before_compute_witness :
    ConstantJerk.get_point cjW 3 = none ∧
    ConstantAcc.get_point tpInitW 5 =
      (if (5:ℝ) - tpInitW.t0 < 0 then (tpInitW.p0, tpInitW.v0, 0)
       else (tpInitW.pe, tpInitW.ve, 0)) :=
  ⟨query_before_compute.1 cjW 3 rfl rfl,
   query_before_compute.2 tpInitW 5 (by norm_num [tpInitW]) rfl⟩

/-! ## Claim C9 -/

/-- Modelled from the spec: `get_duration` is absent from the sources
under `src/` (only `src/tests/test_getters.py` and the angle tests call
it); per spec §6 it fails with `NotCalculated` before `compute` and
afterwards returns the total duration (the sum of the stored phase
durations, which is what `calc_trajectory` returned). -/
def get_duration (st : ConstantAcc.State) : Except PlanError ℝ :=
  if st.trajectory_calced = false then .error .notCalculated
  else .ok st.dt.sum

/-- Modelled from the spec: `get_end_time` is absent from the sources
under `src/`; per spec §6 it fails with `NotCalculated` before `compute`
and afterwards returns `t0 + totalDuration`. -/
def get_end_time (st : ConstantAcc.State) : Except PlanError ℝ :=
  if st.trajectory_calced = false then .error .notCalculated
  else .ok (st.t0 + st.dt.sum)

/-- C9: `get_duration` and `get_end_time` both fail with `NotCalculated`
when invoked before `calc_trajectory`, and after a successful
`calc_trajectory` they return the total duration and `t0 + duration`
respectively. -/
theorem getters_lifecycle :
    (∀ st : ConstantAcc.State, st.trajectory_calced = false →
      get_duration st = .error .notCalculated ∧
      get_end_time st = .error .notCalculated) ∧
    (∀ st st' T w, ConstantAcc.calc_trajectory st = ⟨st', .ok T, w⟩ →
      get_duration st' = .ok T ∧ get_end_time st' = .ok (st'.t0 + T)) := by
  constructor
  · intro st h
    exact ⟨by simp [get_duration, h], by simp [get_end_time, h]⟩
  · intro st st' T w h
    obtain ⟨-, hsum, -, hcalc⟩ := tp_calc_ok_durations st st' T w h
    rw [get_duration, get_end_time, hcalc]
    rw [hsum]
    simp

/-- Witness for C9: the uncomputed `tpInitW` errors on both getters; the
computed `accWPlan` (duration 4, `t0 = 0`) answers both. -/
theorem getters_lifecycle_witness :
    (get_duration tpInitW = .error .notCalculated ∧
     get_end_time tpInitW = .error .notCalculated) ∧
    (get_duration accWPlan = .ok 4 ∧
     get_end_time accWPlan = .ok (accWPlan.t0 + 4)) :=
  ⟨getters_lifecycle.1 tpInitW rfl,
   getters_lifecycle.2 accW accWPlan 4 0 accW_calc⟩

/-! ## Claim C4 -/

/-- `normalize_angle` lands in `(-π, π]`. -/
lemma normalize_angle_mem (θ : ℝ) :
    normalize_angle θ ∈ Set.Ioc (-Real.pi) Real.pi :=
  Complex.arg_mem_Ioc _

/-- `normalize_angle` fixes angles already in `(-π, π]`. -/
lemma normalize_angle_eq_self {θ : ℝ} (h : θ ∈ Set.Ioc (-Real.pi) Real.pi) :
    normalize_angle θ = θ :=
  Complex.arg_cos_add_sin_mul_I h

/-- `normalize_angle` is `2π`-periodic. -/
lemma normalize_angle_add_two_pi (θ : ℝ) :
    normalize_angle (θ + 2 * Real.pi) = normalize_angle θ := by
  unfold normalize_angle
  have hc : Complex.cos ↑(θ + 2 * Real.pi) = Complex.cos ↑θ := by
    push_cast
    exact Complex.cos_add_two_pi _
  have hs : Complex.sin ↑(θ + 2 * Real.pi) = Complex.sin ↑θ := by
    push_cast
    exact Complex.sin_add_two_pi _
  rw [hc, hs]

/-- The angular-planner state produced by
`angle_init 1 2 1 1 0 0 0 none` (witness instance for C4). -/
def angW : ConstantAcc.State :=
  { t0 := 0, p0 := normalize_angle 1, v0 := 0,
    pe := normalize_angle 1 +
      normalize_angle (normalize_angle 2 - normalize_angle 1),
    ve := 0, vmax := 1, amax_accel := 1, amax_decel := 1,
    point_setted := true, constraints_setted := true,
    initial_state_setted := true }

lemma angW_init : angle_init 1 2 1 1 0 0 0 none = .ok angW := by
  unfold angle_init ConstantAcc.set_constraints ConstantAcc.set_point
    ConstantAcc.set_initial
  norm_num [angW]

/-- C4: `TwoAngleInterpolation.init` normalizes both angles, computes the
shortest signed displacement `Δ = normalize(normalize pe - normalize p0)`
with `|Δ| ≤ π`, and targets `normalize p0 + Δ`; concretely, from 350° to
10° the normalized start is −10°, the normalized end is +10° and the
displacement is +20°, and from 0° to 270° the normalized end is −90° and
the displacement is −90°. -/
theorem angular_shortest_path :
    (∀ p0 pe acc vmax t0 v0 ve dm st,
      angle_init p0 pe acc vmax t0 v0 ve dm = .ok st →
      st.t0 = t0 ∧ st.p0 = normalize_angle p0 ∧
      st.pe = normalize_angle p0 +
        normalize_angle (normalize_angle pe - normalize_angle p0) ∧
      |normalize_angle (normalize_angle pe - normalize_angle p0)| ≤
        Real.pi) ∧
    (normalize_angle (350 * Real.pi / 180) = -(10 * Real.pi / 180) ∧
     normalize_angle (10 * Real.pi / 180) = 10 * Real.pi / 180 ∧
     normalize_angle (normalize_angle (10 * Real.pi / 180) -
        normalize_angle (350 * Real.pi / 180)) = 20 * Real.pi / 180) ∧
    (normalize_angle 0 = 0 ∧
     normalize_angle (270 * Real.pi / 180) = -(90 * Real.pi / 180) ∧
     normalize_angle (normalize_angle (270 * Real.pi / 180) -
        normalize_angle 0) = -(90 * Real.pi / 180)) := by
  have hpi := Real.pi_pos
  have h350 : normalize_angle (350 * Real.pi / 180) =
      -(10 * Real.pi / 180) := by
    rw [show (350 * Real.pi / 180 : ℝ) =
          -(10 * Real.pi / 180) + 2 * Real.pi by ring,
        normalize_angle_add_two_pi]
    exact normalize_angle_eq_self ⟨by nlinarith, by nlinarith⟩
  have h10 : normalize_angle (10 * Real.pi / 180) = 10 * Real.pi / 180 :=
    normalize_angle_eq_self ⟨by nlinarith, by nlinarith⟩
  have h270 : normalize_angle (270 * Real.pi / 180) =
      -(90 * Real.pi / 180) := by
    rw [show (270 * Real.pi / 180 : ℝ) =
          -(90 * Real.pi / 180) + 2 * Real.pi by ring,
        normalize_angle_add_two_pi]
    exact normalize_angle_eq_self ⟨by nlinarith, by nlinarith⟩
  have h0 : normalize_angle 0 = 0 :=
    normalize_angle_eq_self ⟨by nlinarith, by nlinarith⟩
  refine ⟨?_, ⟨h350, h10, ?_⟩, ⟨h0, h270, ?_⟩⟩
  · intro p0 pe acc vmax t0 v0 ve dm st h
    unfold angle_init ConstantAcc.set_constraints ConstantAcc.set_point
      ConstantAcc.set_initial at h
    dsimp only at h
    split_ifs at h
    simp only [Except.ok.injEq] at h
    subst h
    obtain ⟨hlt, hle⟩ := normalize_angle_mem
      (normalize_angle pe - normalize_angle p0)
    exact ⟨rfl, rfl, rfl, abs_le.mpr ⟨by linarith, hle⟩⟩
  · rw [h10, h350,
        show (10 * Real.pi / 180 : ℝ) - -(10 * Real.pi / 180) =
          20 * Real.pi / 180 by ring]
    exact normalize_angle_eq_self ⟨by nlinarith, by nlinarith⟩
  · rw [h270, h0, sub_zero]
    exact normalize_angle_eq_self ⟨by nlinarith, by nlinarith⟩

/-- Witness for C4, instantiating the universally quantified part at the
concrete request `angle_init 1 2 1 1 0 0 0 none`. -/
theorem angular_shortest_path_witness :
    angW.t0 = 0 ∧ angW.p0 = normalize_angle 1 ∧
    angW.pe = normalize_angle 1 +
      normalize_angle (normalize_angle 2 - normalize_angle 1) ∧
    |normalize_angle (normalize_angle 2 - normalize_angle 1)| ≤ Real.pi :=
  angular_shortest_path.1 1 2 1 1 0 0 0 none angW angW_init

/-! ## Claim C2 -/

/-- C2 (amended): trapezoidal `calc_trajectory` is not atomic.  Failures
raised by the lifecycle checks or the zero-displacement check leave the
object state exactly as it was; but the plan lists are cleared *before*
the quadratic solve, so a non-positive discriminant or a missing positive
root leaves `dt = a = []`, `v = [v0]`, `p = [p0]` (the previous plan is
lost, only the old regime tag and calculated flag survive), and a
negative cruise duration leaves a partially rebuilt one-phase plan with
the regime tag already set to 1. -/
theorem compute_failure_state :
    ∀ st r, ConstantAcc.calc_trajectory st = r → ∀ e, r.res = .error e →
      ((e = .endPointNotSet ∨ e = .constraintsNotSet ∨
        e = .initialStateNotSet ∨ e = .invalidBoundaryCondition) ∧
        r.state = st) ∨
      ((e = .discriminantNonpositive ∨ e = .noPositiveSolution) ∧
        r.state =
          { st with dt := [], a := [], v := [st.v0], p := [st.p0] }) ∨
      (e = .negativeCruise ∧ ∃ d a1 p1,
        r.state =
          { st with
            dt := [d], a := [a1],
            v := [st.v0, st.vmax * ConstantAcc.tp_sign st],
            p := [st.p0, p1], case := 1 }) := by
  intro st r h e he
  unfold ConstantAcc.calc_trajectory at h
  split_ifs at h with hp hc hi hdp hdv hdisc
  · subst h
    simp only [Except.error.injEq] at he
    subst he
    exact Or.inl ⟨by tauto, rfl⟩
  · subst h
    simp only [Except.error.injEq] at he
    subst he
    exact Or.inl ⟨by tauto, rfl⟩
  · subst h
    simp only [Except.error.injEq] at he
    subst he
    exact Or.inl ⟨by tauto, rfl⟩
  · subst h
    simp at he
  · subst h
    simp only [Except.error.injEq] at he
    subst he
    exact Or.inl ⟨by tauto, rfl⟩
  · subst h
    simp only [Except.error.injEq] at he
    subst he
    exact Or.inr (Or.inl ⟨by tauto, rfl⟩)
  · rcases hroot : ConstantAcc.tp_root st with - | d
    · rw [hroot] at h
      dsimp only at h
      subst h
      simp only [Except.error.injEq] at he
      subst he
      exact Or.inr (Or.inl ⟨by tauto, rfl⟩)
    · rw [hroot] at h
      dsimp only at h
      unfold ConstantAcc.tp_case1_finish at h
      dsimp only at h
      split_ifs at h with hv1 hov h12 h12'
      · subst h
        simp at he
      · subst h
        simp only [Except.error.injEq] at he
        subst he
        exact Or.inr (Or.inr ⟨rfl,
          |(st.vmax * ConstantAcc.tp_sign st - st.v0) /
            ConstantAcc.tp_acc st|,
          ConstantAcc.tp_acc st,
          ConstantAcc.p_integ st.p0 st.v0 (ConstantAcc.tp_acc st)
            |(st.vmax * ConstantAcc.tp_sign st - st.v0) /
              ConstantAcc.tp_acc st|,
          rfl⟩)
      · subst h
        simp at he
      · subst h
        simp only [Except.error.injEq] at he
        subst he
        exact Or.inr (Or.inr ⟨rfl,
          |(st.vmax * ConstantAcc.tp_sign st - st.v0) /
            ConstantAcc.tp_dec st|,
          -ConstantAcc.tp_dec st,
          ConstantAcc.p_integ st.p0 st.v0 (-ConstantAcc.tp_dec st)
            |(st.vmax * ConstantAcc.tp_sign st - st.v0) /
              ConstantAcc.tp_dec st|,
          rfl⟩)
      · subst h
        simp at he

/-- Counterexample to C2 as stated: after a successful compute with plan
`dt = [2, 2]`, re-initialising to `v0 = 4, pe = 1` (insufficient braking
distance) makes `calc_trajectory` raise no-positive-solution — and the
previously computed phase-duration list is gone (`dt = []`). -/
theorem compute_failure_state_counterexample :
    ConstantAcc.calc_trajectory accW = ⟨accWPlan, .ok 4, 0⟩ ∧
    accWPlan.dt = [2, 2] ∧
    (ConstantAcc.calc_trajectory
      (ConstantAcc.set_point
        (ConstantAcc.set_initial accWPlan 0 0 4) 1 0)).res =
      .error .noPositiveSolution ∧
    (ConstantAcc.calc_trajectory
      (ConstantAcc.set_point
        (ConstantAcc.set_initial accWPlan 0 0 4) 1 0)).state.dt = [] := by
  refine ⟨accW_calc, rfl, ?_⟩
  have hdisc : ConstantAcc.tp_disc
      (ConstantAcc.set_point (ConstantAcc.set_initial accWPlan 0 0 4) 1 0) =
      36 := by
    unfold ConstantAcc.tp_disc ConstantAcc.tp_b_coeff ConstantAcc.tp_a_coeff
      ConstantAcc.tp_c_coeff ConstantAcc.tp_acc ConstantAcc.tp_dec
      ConstantAcc.tp_sign ConstantAcc.tp_dp ConstantAcc.set_point
      ConstantAcc.set_initial accWPlan accW
    norm_num
  have h36 : Real.sqrt (ConstantAcc.tp_disc
      (ConstantAcc.set_point (ConstantAcc.set_initial accWPlan 0 0 4) 1 0)) =
      6 := by
    rw [hdisc, show (36:ℝ) = 6 ^ 2 by norm_num, Real.sqrt_sq (by norm_num)]
  have hplus : ConstantAcc.tp_dt01_plus
      (ConstantAcc.set_point (ConstantAcc.set_initial accWPlan 0 0 4) 1 0) =
      -1 := by
    unfold ConstantAcc.tp_dt01_plus
    rw [h36]
    unfold ConstantAcc.tp_b_coeff ConstantAcc.tp_a_coeff ConstantAcc.tp_acc
      ConstantAcc.tp_dec ConstantAcc.tp_sign ConstantAcc.tp_dp
      ConstantAcc.set_point ConstantAcc.set_initial accWPlan accW
    norm_num
  have hminus : ConstantAcc.tp_dt01_minus
      (ConstantAcc.set_point (ConstantAcc.set_initial accWPlan 0 0 4) 1 0) =
      -7 := by
    unfold ConstantAcc.tp_dt01_minus
    rw [h36]
    unfold ConstantAcc.tp_b_coeff ConstantAcc.tp_a_coeff ConstantAcc.tp_acc
      ConstantAcc.tp_dec ConstantAcc.tp_sign ConstantAcc.tp_dp
      ConstantAcc.set_point ConstantAcc.set_initial accWPlan accW
    norm_num
  have hroot : ConstantAcc.tp_root
      (ConstantAcc.set_point (ConstantAcc.set_initial accWPlan 0 0 4) 1 0) =
      none := by
    unfold ConstantAcc.tp_root
    rw [hplus, hminus]
    norm_num
  unfold ConstantAcc.calc_trajectory
  rw [hroot]
  rw [if_neg (by norm_num [ConstantAcc.set_point, ConstantAcc.set_initial,
        accWPlan, accW])]
  rw [if_neg (by norm_num [ConstantAcc.set_point, ConstantAcc.set_initial,
        accWPlan, accW])]
  rw [if_neg (by norm_num [ConstantAcc.set_point, ConstantAcc.set_initial,
        accWPlan, accW])]
  rw [if_neg (by norm_num [ConstantAcc.tp_dp, ConstantAcc.set_point,
        ConstantAcc.set_initial, accWPlan, accW] :
        ¬ConstantAcc.tp_dp (ConstantAcc.set_point
          (ConstantAcc.set_initial accWPlan 0 0 4) 1 0) = 0)]
  rw [if_neg (by rw [hdisc]; norm_num :
        ¬ConstantAcc.tp_disc (ConstantAcc.set_point
          (ConstantAcc.set_initial accWPlan 0 0 4) 1 0) ≤ 0)]
  exact ⟨rfl, rfl⟩

/-- Witness for C2 at a fresh (never-initialised) planner object: the
end-point-not-set failure leaves the state untouched. -/
theorem compute_failure_state_witness :
    ((PlanError.endPointNotSet = PlanError.endPointNotSet ∨
      PlanError.endPointNotSet = PlanError.constraintsNotSet ∨
      PlanError.endPointNotSet = PlanError.initialStateNotSet ∨
      PlanError.endPointNotSet = PlanError.invalidBoundaryCondition) ∧
      (ConstantAcc.calc_trajectory {}).state = {}) ∨
    ((PlanError.endPointNotSet = PlanError.discriminantNonpositive ∨
      PlanError.endPointNotSet = PlanError.noPositiveSolution) ∧
      (ConstantAcc.calc_trajectory {}).state =
        { ({} : ConstantAcc.State) with
          dt := [], a := [], v := [ConstantAcc.State.v0 {}],
          p := [ConstantAcc.State.p0 {}] }) ∨
    (PlanError.endPointNotSet = PlanError.negativeCruise ∧ ∃ d a1 p1,
      (ConstantAcc.calc_trajectory {}).state =
        { ({} : ConstantAcc.State) with
          dt := [d], a := [a1],
          v := [ConstantAcc.State.v0 {},
                ConstantAcc.State.vmax {} * ConstantAcc.tp_sign {}],
          p := [ConstantAcc.State.p0 {}, p1], case := 1 }) :=
  compute_failure_state {} (ConstantAcc.calc_trajectory {}) rfl
    .endPointNotSet (by rfl)

/-! ## Claim C10 -/

/-- The direction sign has absolute value 1 whenever the displacement is
nonzero. -/
lemma tp_sign_abs {st : ConstantAcc.State} (h : ConstantAcc.tp_dp st ≠ 0) :
    |ConstantAcc.tp_sign st| = 1 := by
  unfold ConstantAcc.tp_sign
  rw [abs_div, abs_abs, div_self (abs_ne_zero.mpr h)]

/-- C10 (amended): for rest-to-rest requests (`v0 = ve = 0`) with positive
constraints, the velocity returned by `get_point` never exceeds `vmax` at
any query time.  (For nonzero boundary velocities the claim fails: see the
counterexample, where a Case-0 plan whose solved peak velocity lies on the
wrong side of `ve` drives `|v|` up to 1.9 with `vmax = 1`.) -/
theorem velocity_cap_rest_to_rest :
    ∀ st st' T w t, ConstantAcc.calc_trajectory st = ⟨st', .ok T, w⟩ →
      st.v0 = 0 → st.ve = 0 → 0 < st.vmax →
      0 < st.amax_accel → 0 < st.amax_decel →
      |(ConstantAcc.get_point st' t).2.1| ≤ st.vmax := by
  intro st st' T w t h hv0 hve hvm hA hD
  unfold ConstantAcc.calc_trajectory at h
  split_ifs at h with hp hc hi hdp hdv hdisc
  · simp at h
  · simp at h
  · simp at h
  · -- no-motion regime
    simp only [ConstantAcc.CalcResult.mk.injEq] at h
    obtain ⟨h1, -, -⟩ := h
    subst h1
    unfold ConstantAcc.get_point
    dsimp only
    rw [if_pos rfl]
    simp only [hv0, abs_zero]
    exact hvm.le
  · simp at h
  · simp at h
  · have hsgn : |ConstantAcc.tp_sign st| = 1 := tp_sign_abs hdp
    have habs_acc : |ConstantAcc.tp_acc st| = st.amax_accel := by
      unfold ConstantAcc.tp_acc
      rw [abs_mul, hsgn, mul_one, abs_of_pos hA]
    have habs_dec : |ConstantAcc.tp_dec st| = st.amax_decel := by
      unfold ConstantAcc.tp_dec
      rw [abs_mul, hsgn, mul_one, abs_of_pos hD]
    rcases hroot : ConstantAcc.tp_root st with - | d
    · rw [hroot] at h; simp at h
    · rw [hroot] at h
      have hdpos := tp_root_pos hroot
      dsimp only at h
      unfold ConstantAcc.tp_case1_finish at h
      dsimp only at h
      split_ifs at h with hv1 hov h12 h12'
      · -- Case 0
        simp only [ConstantAcc.CalcResult.mk.injEq] at h
        obtain ⟨h1, -, -⟩ := h
        subst h1
        have hv1' : st.amax_accel * d < st.vmax := by
          have e : ConstantAcc.v_integ st.v0 (ConstantAcc.tp_acc st) d =
              ConstantAcc.tp_acc st * d := by
            unfold ConstantAcc.v_integ; rw [hv0]; ring
          rw [e, abs_mul, habs_acc, abs_of_pos hdpos] at hv1
          exact hv1
        unfold ConstantAcc.get_point
        dsimp only
        rw [if_neg (by simp)]
        split_ifs with hneg hend
        · simpa [hv0] using hvm.le
        · simpa [hve] using hvm.le
        · push_neg at hneg hend
          unfold ConstantAcc.phases
          dsimp only
          simp only [List.zip_cons_cons, List.zip_nil_left]
          simp only [ConstantAcc.phase_lookup]
          split_ifs with hL1 hL2
          · dsimp only
            have e : ConstantAcc.v_integ st.v0 (ConstantAcc.tp_acc st)
                (t - st.t0 - 0) = ConstantAcc.tp_acc st * (t - st.t0) := by
              unfold ConstantAcc.v_integ; rw [hv0]; ring
            rw [e, abs_mul, habs_acc, abs_of_nonneg hneg]
            rw [← le_div_iff₀' hA]
            have hd' : t - st.t0 ≤ d := by linarith [hL1]
            have : d ≤ st.vmax / st.amax_accel := by
              rw [le_div_iff₀ hA]
              nlinarith [hv1']
            linarith
          · dsimp only
            have hd1e : |(ConstantAcc.v_integ st.v0 (ConstantAcc.tp_acc st) d -
                st.ve) / ConstantAcc.tp_dec st| =
                st.amax_accel * d / st.amax_decel := by
              rw [hve, sub_zero, abs_div, habs_dec]
              have e : ConstantAcc.v_integ st.v0 (ConstantAcc.tp_acc st) d =
                  ConstantAcc.tp_acc st * d := by
                unfold ConstantAcc.v_integ; rw [hv0]; ring
              rw [e, abs_mul, habs_acc, abs_of_pos hdpos]
            rw [hd1e] at hL2
            have key : ∀ tin : ℝ, 0 ≤ tin →
                st.amax_decel * tin ≤ st.amax_accel * d →
                |ConstantAcc.v_integ
                  (ConstantAcc.v_integ st.v0 (ConstantAcc.tp_acc st) d)
                  (-ConstantAcc.tp_dec st) tin| ≤ st.vmax := by
              intro tin h1 h2
              have e : ConstantAcc.v_integ
                  (ConstantAcc.v_integ st.v0 (ConstantAcc.tp_acc st) d)
                  (-ConstantAcc.tp_dec st) tin =
                  ConstantAcc.tp_sign st *
                    (st.amax_accel * d - st.amax_decel * tin) := by
                unfold ConstantAcc.v_integ ConstantAcc.tp_acc
                  ConstantAcc.tp_dec
                rw [hv0]; ring
              rw [e, abs_mul, hsgn, one_mul,
                abs_of_nonneg (by linarith [mul_nonneg hD.le h1])]
              linarith [hv1', mul_nonneg hD.le h1]
            apply key
            · linarith [not_le.mp hL1]
            · rw [mul_comm, ← le_div_iff₀ hD]
              linarith [hL2]
          · dsimp only
            simpa [ConstantAcc.v_integ] using hvm.le
      · -- Case 1, accelerating entry, negative cruise: error branch
        simp at h
      · -- Case 1, accelerating entry, success
        simp only [ConstantAcc.CalcResult.mk.injEq] at h
        obtain ⟨h1, -, -⟩ := h
        subst h1
        have hd0 : |(st.vmax * ConstantAcc.tp_sign st - st.v0) /
            ConstantAcc.tp_acc st| = st.vmax / st.amax_accel := by
          rw [hv0, sub_zero, abs_div, abs_mul, hsgn, mul_one,
            abs_of_pos hvm, habs_acc]
        have hd2 : |(st.vmax * ConstantAcc.tp_sign st - st.ve) /
            ConstantAcc.tp_dec st| = st.vmax / st.amax_decel := by
          rw [hve, sub_zero, abs_div, abs_mul, hsgn, mul_one,
            abs_of_pos hvm, habs_dec]
        unfold ConstantAcc.get_point
        dsimp only
        rw [if_neg (by simp)]
        split_ifs with hneg hend
        · simpa [hv0] using hvm.le
        · simpa [hve] using hvm.le
        · push_neg at hneg hend
          unfold ConstantAcc.phases
          dsimp only
          simp only [List.zip_cons_cons, List.zip_nil_left]
          simp only [ConstantAcc.phase_lookup]
          split_ifs with hL1 hL2 hL3
          · dsimp only
            rw [hd0] at hL1
            have e : ConstantAcc.v_integ st.v0 (ConstantAcc.tp_acc st)
                (t - st.t0 - 0) = ConstantAcc.tp_acc st * (t - st.t0) := by
              unfold ConstantAcc.v_integ; rw [hv0]; ring
            rw [e, abs_mul, habs_acc, abs_of_nonneg hneg]
            rw [← le_div_iff₀' hA]
            linarith [hL1]
          · dsimp only
            have key : ∀ tin : ℝ,
                |ConstantAcc.v_integ (st.vmax * ConstantAcc.tp_sign st) 0
                  tin| ≤ st.vmax := by
              intro tin
              have e : ConstantAcc.v_integ
                  (st.vmax * ConstantAcc.tp_sign st) 0 tin =
                  st.vmax * ConstantAcc.tp_sign st := by
                unfold ConstantAcc.v_integ; ring
              rw [e, abs_mul, hsgn, mul_one, abs_of_pos hvm]
            apply key
          · dsimp only
            have key : ∀ tin : ℝ, 0 ≤ tin →
                st.amax_decel * tin ≤ st.vmax →
                |ConstantAcc.v_integ (st.vmax * ConstantAcc.tp_sign st)
                  (-ConstantAcc.tp_dec st) tin| ≤ st.vmax := by
              intro tin h1 h2
              have e : ConstantAcc.v_integ
                  (st.vmax * ConstantAcc.tp_sign st)
                  (-ConstantAcc.tp_dec st) tin =
                  ConstantAcc.tp_sign st *
                    (st.vmax - st.amax_decel * tin) := by
                unfold ConstantAcc.v_integ ConstantAcc.tp_dec
                ring
              rw [e, abs_mul, hsgn, one_mul,
                abs_of_nonneg (by linarith [mul_nonneg hD.le h1])]
              linarith [mul_nonneg hD.le h1]
            apply key
            · linarith [not_le.mp hL2]
            · rw [mul_comm, ← le_div_iff₀ hD]
              linarith [hL3, hd2]
          · dsimp only
            simpa [ConstantAcc.v_integ] using hvm.le
      · -- Case 1, overspeed entry with v0 = 0: impossible
        exfalso
        rw [hv0] at hov
        push_neg at hov
        have hs2 : ConstantAcc.tp_sign st ^ 2 = 1 := by
          rw [← sq_abs, hsgn]; norm_num
        nlinarith [hov, hvm]
      · exfalso
        rw [hv0] at hov
        push_neg at hov
        have hs2 : ConstantAcc.tp_sign st ^ 2 = 1 := by
          rw [← sq_abs, hsgn]; norm_num
        nlinarith [hov, hvm]

/-- Inputs exhibiting the velocity-cap violation: boundary velocities
within the cap (`v0 = -0.9`, `ve = 0.5`, `vmax = 1`) but a tiny forward
displacement. -/
def c10St : ConstantAcc.State :=
  { p0 := 0, pe := 13/400, v0 := -9/10, ve := 1/2, vmax := 1,
    amax_accel := 1, amax_decel := 1, point_setted := true,
    constraints_setted := true, initial_state_setted := true }

/-- The plan `calc_trajectory` computes for `c10St` (smaller root
`dt01 = 3/20`, peak velocity `-3/4`, Case 0). -/
def c10Plan : ConstantAcc.State :=
  { c10St with dt := [3/20, 5/4], a := [1, -1], v := [-9/10, -3/4],
               p := [0, -99/800], case := 0, trajectory_calced := true }

lemma c10_abs : |(13/400 : ℝ)| = 13/400 := by norm_num

lemma c10_disc : ConstantAcc.tp_disc c10St = 9/4 := by
  unfold ConstantAcc.tp_disc ConstantAcc.tp_b_coeff ConstantAcc.tp_a_coeff
    ConstantAcc.tp_c_coeff ConstantAcc.tp_acc ConstantAcc.tp_dec
    ConstantAcc.tp_sign ConstantAcc.tp_dp c10St
  norm_num [c10_abs]

lemma c10_root : ConstantAcc.tp_root c10St = some (3/20) := by
  have hs : Real.sqrt (ConstantAcc.tp_disc c10St) = 3/2 := by
    rw [c10_disc, show (9/4:ℝ) = (3/2) ^ 2 by norm_num,
      Real.sqrt_sq (by norm_num)]
  have hplus : ConstantAcc.tp_dt01_plus c10St = 33/20 := by
    unfold ConstantAcc.tp_dt01_plus
    rw [hs]
    unfold ConstantAcc.tp_b_coeff ConstantAcc.tp_a_coeff ConstantAcc.tp_acc
      ConstantAcc.tp_dec ConstantAcc.tp_sign ConstantAcc.tp_dp c10St
    norm_num [c10_abs]
  have hminus : ConstantAcc.tp_dt01_minus c10St = 3/20 := by
    unfold ConstantAcc.tp_dt01_minus
    rw [hs]
    unfold ConstantAcc.tp_b_coeff ConstantAcc.tp_a_coeff ConstantAcc.tp_acc
      ConstantAcc.tp_dec ConstantAcc.tp_sign ConstantAcc.tp_dp c10St
    norm_num [c10_abs]
  unfold ConstantAcc.tp_root
  rw [hplus, hminus]
  norm_num [min_def]

/-- Evaluation of the trapezoidal planner on `c10St`. -/
lemma c10_calc :
    ConstantAcc.calc_trajectory c10St = ⟨c10Plan, .ok (7/5), 0⟩ := by
  unfold ConstantAcc.calc_trajectory
  rw [c10_root]
  rw [if_neg (by norm_num [c10St])]
  rw [if_neg (by norm_num [c10St])]
  rw [if_neg (by norm_num [c10St])]
  rw [if_neg (by norm_num [c10St, ConstantAcc.tp_dp] :
        ¬ConstantAcc.tp_dp c10St = 0)]
  rw [if_neg (by rw [c10_disc]; norm_num :
        ¬ConstantAcc.tp_disc c10St ≤ 0)]
  dsimp only
  rw [if_pos]
  · unfold ConstantAcc.v_integ ConstantAcc.p_integ ConstantAcc.tp_acc
      ConstantAcc.tp_dec ConstantAcc.tp_sign ConstantAcc.tp_dp
    simp only [c10St, c10Plan, ConstantAcc.CalcResult.mk.injEq,
      ConstantAcc.State.mk.injEq]
    norm_num [c10_abs, show |(-5/4 : ℝ)| = 5/4 by norm_num,
      show |(5/4 : ℝ)| = 5/4 by norm_num]
  · unfold ConstantAcc.v_integ ConstantAcc.tp_acc ConstantAcc.tp_sign
      ConstantAcc.tp_dp c10St
    norm_num [c10_abs, show |(-(3:ℝ)/4)| = 3/4 by norm_num,
      show |(3/4 : ℝ)| = 3/4 by norm_num]

/-- Counterexample to C10 as stated: `c10St` has `|v0| ≤ vmax` and
`|ve| ≤ vmax`, its plan computes successfully, yet at query time `1.3`
the evaluated velocity is `-1.9`, far beyond `vmax = 1` (the solved peak
`-3/4` is below `ve = 1/2`, so the `np.fabs` deceleration duration drives
the velocity the wrong way). -/
theorem velocity_cap_counterexample :
    ConstantAcc.calc_trajectory c10St = ⟨c10Plan, .ok (7/5), 0⟩ ∧
    |c10St.v0| ≤ c10St.vmax ∧ |c10St.ve| ≤ c10St.vmax ∧
    (ConstantAcc.get_point c10Plan (13/10)).2.1 = -19/10 ∧
    ¬(|(ConstantAcc.get_point c10Plan (13/10)).2.1| ≤ c10St.vmax) := by
  refine ⟨c10_calc, by norm_num [c10St, show |(9/10 : ℝ)| = 9/10 by norm_num],
    by norm_num [c10St, show |(1/2 : ℝ)| = 1/2 by norm_num], ?_⟩
  have he : ConstantAcc.get_point c10Plan (13/10) =
      (ConstantAcc.p_integ (-99/800) (-3/4) (-1) (23/20),
       ConstantAcc.v_integ (-3/4) (-1) (23/20), -1) := by
    unfold ConstantAcc.get_point ConstantAcc.phases
    rw [if_neg (by norm_num [c10Plan, c10St])]
    rw [if_neg (by norm_num [c10Plan, c10St])]
    rw [if_neg (by norm_num [c10Plan, c10St])]
    simp only [c10Plan, c10St, List.zip_cons_cons, List.zip_nil_left,
      ConstantAcc.phase_lookup]
    norm_num
  rw [he]
  unfold ConstantAcc.v_integ
  norm_num [c10St, show |(19/10 : ℝ)| = 19/10 by norm_num]

/-- Witness for C10 at the rest-to-rest plan `accWPlan`, query time 1. -/
theorem velocity_cap_witness :
    |(ConstantAcc.get_point accWPlan 1).2.1| ≤ accW.vmax :=
  velocity_cap_rest_to_rest accW accWPlan 4 0 1 accW_calc rfl rfl
    (by norm_num [accW]) (by norm_num [accW]) (by norm_num [accW])

/-- `sign = dp/|dp|` is `±1` whenever `dp ≠ 0`. -/
lemma tp_sign_cases {st : ConstantAcc.State} (h : ConstantAcc.tp_dp st ≠ 0) :
    ConstantAcc.tp_sign st = 1 ∨ ConstantAcc.tp_sign st = -1 := by
  unfold ConstantAcc.tp_sign
  rcases lt_or_gt_of_ne h with hlt | hgt
  · right
    rw [abs_of_neg hlt, div_neg, div_self (ne_of_lt hlt)]
  · left
    rw [abs_of_pos hgt, div_self (ne_of_gt hgt)]

set_option maxHeartbeats 1600000

/-- C6 (amended): if the trapezoidal planner reaches Case 1 with signed
overspeed (`sign·v0 ≥ sign·v1'`) **and** the signed end velocity does not
itself exceed the cap (`sign·ve ≤ vmax`), then `calc_trajectory` succeeds,
its first phase uses acceleration `-dec`, and the call emits exactly one
Overspeed `UserWarning`; conversely every successful compute emits zero or
one warnings, and exactly one precisely when the overspeed Case-1
condition holds.  (Without the `sign·ve ≤ vmax` strengthening the success
part is false: see the counterexample, where the warning is emitted and
the call then raises a negative-cruise error.) -/
theorem overspeed_case1 :
    (∀ st d, st.point_setted = true → st.constraints_setted = true →
      st.initial_state_setted = true →
      0 < st.vmax → 0 < st.amax_accel → 0 < st.amax_decel →
      ConstantAcc.tp_dp st ≠ 0 → ¬ConstantAcc.tp_disc st ≤ 0 →
      ConstantAcc.tp_root st = some d →
      ¬|ConstantAcc.v_integ st.v0 (ConstantAcc.tp_acc st) d| < st.vmax →
      ConstantAcc.tp_sign st * (st.vmax * ConstantAcc.tp_sign st) ≤
        ConstantAcc.tp_sign st * st.v0 →
      ConstantAcc.tp_sign st * st.ve ≤ st.vmax →
      ∃ st' T, ConstantAcc.calc_trajectory st = ⟨st', .ok T, 1⟩ ∧
        st'.a = [-ConstantAcc.tp_dec st, 0, -ConstantAcc.tp_dec st]) ∧
    (∀ st st' T w, ConstantAcc.calc_trajectory st = ⟨st', .ok T, w⟩ →
      (w = 0 ∨ w = 1) ∧
      (w = 1 ↔ ConstantAcc.tp_dp st ≠ 0 ∧ ∃ d,
        ConstantAcc.tp_root st = some d ∧
        ¬|ConstantAcc.v_integ st.v0 (ConstantAcc.tp_acc st) d| < st.vmax ∧
        ¬ConstantAcc.tp_sign st * st.v0 <
          ConstantAcc.tp_sign st * (st.vmax * ConstantAcc.tp_sign st))) := by
  constructor
  · intro st d hps hcs his hvm hA hD hdp hdisc hroot hv1 hov hve
    have hdpos := tp_root_pos hroot
    have hdisc' : 0 ≤ ConstantAcc.tp_disc st := le_of_lt (not_le.mp hdisc)
    have hsgn := tp_sign_cases hdp
    unfold ConstantAcc.calc_trajectory
    rw [hroot]
    rw [if_neg hdp, if_neg hdisc]
    rw [if_neg (show ¬(st.point_setted = false) by simp [hps])]
    rw [if_neg (show ¬(st.constraints_setted = false) by simp [hcs])]
    rw [if_neg (show ¬(st.initial_state_setted = false) by simp [his])]
    dsimp only
    rw [if_neg hv1, if_neg (not_lt.mpr hov)]
    unfold ConstantAcc.tp_case1_finish
    dsimp only
    split_ifs with h12
    · exfalso
      rcases hsgn with hs | hs
      · -- sign = 1: the planner is moving forward faster than the cap.
        rw [hs] at h12 hov hve
        simp only [mul_one, one_mul] at h12 hov hve
        have hdec : ConstantAcc.tp_dec st = st.amax_decel := by
          unfold ConstantAcc.tp_dec; rw [hs, mul_one]
        rw [hdec] at h12
        have e1 : |(st.vmax - st.v0) / st.amax_decel| =
            (st.v0 - st.vmax) / st.amax_decel := by
          rw [abs_div, abs_of_pos hD, abs_sub_comm, abs_of_nonneg (by linarith)]
        have e2 : |(st.vmax - st.ve) / st.amax_decel| =
            (st.vmax - st.ve) / st.amax_decel := by
          rw [abs_div, abs_of_pos hD, abs_of_nonneg (by linarith)]
        rw [e1, e2] at h12
        have eident : st.pe -
            ConstantAcc.p_integ st.p0 st.v0 (-st.amax_decel)
              ((st.v0 - st.vmax) / st.amax_decel) -
            ConstantAcc.p_integ 0 st.vmax (-st.amax_decel)
              ((st.vmax - st.ve) / st.amax_decel) =
            -ConstantAcc.tp_c_coeff st := by
          unfold ConstantAcc.p_integ ConstantAcc.tp_c_coeff ConstantAcc.tp_dp
            ConstantAcc.tp_dec
          rw [hs]
          field_simp
          ring
        rw [eident] at h12
        have ha_pos : 0 < ConstantAcc.tp_a_coeff st := by
          unfold ConstantAcc.tp_a_coeff ConstantAcc.tp_acc ConstantAcc.tp_dec
          rw [hs]
          simp only [mul_one]
          have h1 : 0 < st.amax_accel / st.amax_decel := div_pos hA hD
          nlinarith [mul_pos hA h1]
        have hb_pos : 0 < ConstantAcc.tp_b_coeff st := by
          unfold ConstantAcc.tp_b_coeff ConstantAcc.tp_acc ConstantAcc.tp_dec
          rw [hs]
          simp only [mul_one]
          have h1 : 0 < st.amax_accel / st.amax_decel := div_pos hA hD
          have hv0 : 0 < st.v0 := lt_of_lt_of_le hvm hov
          nlinarith [mul_pos hv0 h1]
        have hrooteq := tp_root_isRoot hroot hdisc' ha_pos.ne'
        have hc_neg : ConstantAcc.tp_c_coeff st < 0 := by
          nlinarith [hrooteq, mul_pos ha_pos (pow_pos hdpos 2),
            mul_pos hb_pos hdpos]
        have hcontra : 0 < -ConstantAcc.tp_c_coeff st / st.vmax :=
          div_pos (by linarith) hvm
        linarith
      · -- sign = -1: moving backward faster than the cap.
        rw [hs] at h12 hov hve
        have hdec : ConstantAcc.tp_dec st = -st.amax_decel := by
          unfold ConstantAcc.tp_dec; rw [hs]; ring
        rw [hdec] at h12
        have e1 : |(st.vmax * (-1 : ℝ) - st.v0) / -st.amax_decel| =
            (-st.vmax - st.v0) / st.amax_decel := by
          rw [show st.vmax * (-1 : ℝ) - st.v0 = -(st.vmax + st.v0) by ring,
            abs_div, abs_neg, abs_neg, abs_of_pos hD,
            abs_of_nonpos (by linarith)]
          ring_nf
        have e2 : |(st.vmax * (-1 : ℝ) - st.ve) / -st.amax_decel| =
            (st.vmax + st.ve) / st.amax_decel := by
          rw [show st.vmax * (-1 : ℝ) - st.ve = -(st.vmax + st.ve) by ring,
            abs_div, abs_neg, abs_neg, abs_of_pos hD,
            abs_of_nonneg (by linarith)]
        rw [e1, e2] at h12
        have eident : st.pe -
            ConstantAcc.p_integ st.p0 st.v0 (- -st.amax_decel)
              ((-st.vmax - st.v0) / st.amax_decel) -
            ConstantAcc.p_integ 0 (st.vmax * (-1 : ℝ)) (- -st.amax_decel)
              ((st.vmax + st.ve) / st.amax_decel) =
            -ConstantAcc.tp_c_coeff st := by
          unfold ConstantAcc.p_integ ConstantAcc.tp_c_coeff ConstantAcc.tp_dp
            ConstantAcc.tp_dec
          rw [hs]
          field_simp
          ring
        rw [eident] at h12
        have ha_neg : ConstantAcc.tp_a_coeff st < 0 := by
          unfold ConstantAcc.tp_a_coeff ConstantAcc.tp_acc ConstantAcc.tp_dec
          rw [hs]
          rw [show st.amax_accel * (-1 : ℝ) / (st.amax_decel * (-1 : ℝ)) =
            st.amax_accel / st.amax_decel by
              rw [mul_neg_one, mul_neg_one, neg_div_neg_eq]]
          have h1 : 0 < st.amax_accel / st.amax_decel := div_pos hA hD
          nlinarith [mul_pos hA h1]
        have hb_neg : ConstantAcc.tp_b_coeff st < 0 := by
          unfold ConstantAcc.tp_b_coeff ConstantAcc.tp_acc ConstantAcc.tp_dec
          rw [hs]
          rw [show st.amax_accel * (-1 : ℝ) / (st.amax_decel * (-1 : ℝ)) =
            st.amax_accel / st.amax_decel by
              rw [mul_neg_one, mul_neg_one, neg_div_neg_eq]]
          have h1 : 0 < st.amax_accel / st.amax_decel := div_pos hA hD
          have hv0 : st.v0 < 0 := by nlinarith [hov, hvm]
          nlinarith [mul_pos (neg_pos.mpr hv0) (by linarith : (0:ℝ) < 1 +
            st.amax_accel / st.amax_decel)]
        have hrooteq := tp_root_isRoot hroot hdisc' ha_neg.ne
        have hc_pos : 0 < ConstantAcc.tp_c_coeff st := by
          nlinarith [hrooteq, mul_neg_of_neg_of_pos ha_neg (pow_pos hdpos 2),
            mul_neg_of_neg_of_pos hb_neg hdpos]
        have hcontra : 0 < -ConstantAcc.tp_c_coeff st / (st.vmax * (-1 : ℝ)) := by
          rw [mul_neg_one, div_neg, neg_div, neg_neg]
          exact div_pos hc_pos hvm
        linarith
    · exact ⟨_, _, rfl, rfl⟩
  · intro st st' T w h
    unfold ConstantAcc.calc_trajectory at h
    split_ifs at h with hp hc hi hdp hdv hdisc
    · simp at h
    · simp at h
    · simp at h
    · -- no-motion regime: no warning, and no positive root condition applies.
      simp only [ConstantAcc.CalcResult.mk.injEq, Except.ok.injEq] at h
      obtain ⟨-, -, hw⟩ := h
      subst hw
      refine ⟨Or.inl rfl, ?_, ?_⟩
      · intro h01; exact absurd h01 (by norm_num)
      · rintro ⟨hdp', -⟩; exact absurd hdp hdp'
    · simp at h
    · simp at h
    · rcases hroot : ConstantAcc.tp_root st with - | d
      · rw [hroot] at h; simp at h
      · rw [hroot] at h
        dsimp only at h
        unfold ConstantAcc.tp_case1_finish at h
        dsimp only at h
        split_ifs at h with hv1 hov h12 h12'
        · -- Case 0: no warning; the Case-1 entry condition fails at the root.
          simp only [ConstantAcc.CalcResult.mk.injEq, Except.ok.injEq] at h
          obtain ⟨-, -, hw⟩ := h
          subst hw
          refine ⟨Or.inl rfl, ?_, ?_⟩
          · intro h01; exact absurd h01 (by norm_num)
          · rintro ⟨-, d', hroot', hv1', -⟩
            simp only [Option.some.injEq] at hroot'
            subst hroot'
            exact absurd hv1 hv1'
        · simp at h
        · -- Case 1, accelerating entry: no warning; overspeed fails.
          simp only [ConstantAcc.CalcResult.mk.injEq, Except.ok.injEq] at h
          obtain ⟨-, -, hw⟩ := h
          subst hw
          refine ⟨Or.inl rfl, ?_, ?_⟩
          · intro h01; exact absurd h01 (by norm_num)
          · rintro ⟨-, d', hroot', -, hov'⟩
            simp only [Option.some.injEq] at hroot'
            subst hroot'
            exact absurd hov hov'
        · simp at h
        · -- Case 1, overspeed entry: exactly one warning.
          simp only [ConstantAcc.CalcResult.mk.injEq, Except.ok.injEq] at h
          obtain ⟨-, -, hw⟩ := h
          subst hw
          exact ⟨Or.inr rfl, fun _ => ⟨hdp, d, rfl, hv1, hov⟩, fun _ => rfl⟩

set_option maxHeartbeats 400000

/-- The C6 counterexample input: `p0 = 0, pe = 1, v0 = 2, ve = 3, vmax = 1,
accelMax = decelMax = 1`.  Case 1 with overspeed is reached and the warning
is emitted, but the signed end velocity also exceeds the cap and the cruise
duration comes out negative, so the call raises after warning. -/
def c6cSt : ConstantAcc.State :=
  { p0 := 0, pe := 1, v0 := 2, ve := 3, vmax := 1, amax_accel := 1,
    amax_decel := 1, point_setted := true, constraints_setted := true,
    initial_state_setted := true }

lemma c6c_disc : ConstantAcc.tp_disc c6cSt = 30 := by
  unfold ConstantAcc.tp_disc ConstantAcc.tp_b_coeff ConstantAcc.tp_a_coeff
    ConstantAcc.tp_c_coeff ConstantAcc.tp_acc ConstantAcc.tp_dec
    ConstantAcc.tp_sign ConstantAcc.tp_dp c6cSt
  norm_num

lemma c6c_sign : ConstantAcc.tp_sign c6cSt = 1 := by
  unfold ConstantAcc.tp_sign ConstantAcc.tp_dp c6cSt
  norm_num

lemma c6c_acc : ConstantAcc.tp_acc c6cSt = 1 := by
  unfold ConstantAcc.tp_acc
  rw [c6c_sign]
  norm_num [c6cSt]

lemma c6c_root :
    ConstantAcc.tp_root c6cSt = some ((-4 + Real.sqrt 30) / 2) := by
  have hb : ConstantAcc.tp_b_coeff c6cSt = 4 := by
    unfold ConstantAcc.tp_b_coeff ConstantAcc.tp_acc ConstantAcc.tp_dec
      ConstantAcc.tp_sign ConstantAcc.tp_dp c6cSt
    norm_num
  have ha : ConstantAcc.tp_a_coeff c6cSt = 1 := by
    unfold ConstantAcc.tp_a_coeff ConstantAcc.tp_acc ConstantAcc.tp_dec
      ConstantAcc.tp_sign ConstantAcc.tp_dp c6cSt
    norm_num
  have hplus : ConstantAcc.tp_dt01_plus c6cSt = (-4 + Real.sqrt 30) / 2 := by
    unfold ConstantAcc.tp_dt01_plus
    rw [c6c_disc, hb, ha]
    norm_num
  have hminus : ConstantAcc.tp_dt01_minus c6cSt = (-4 - Real.sqrt 30) / 2 := by
    unfold ConstantAcc.tp_dt01_minus
    rw [c6c_disc, hb, ha]
    norm_num
  have h30 : (4 : ℝ) < Real.sqrt 30 := by
    rw [Real.lt_sqrt (by norm_num)]
    norm_num
  have hpp : 0 < (-4 + Real.sqrt 30) / 2 := div_pos (by linarith) (by norm_num)
  have hmn : (-4 - Real.sqrt 30) / 2 < 0 :=
    div_neg_of_neg_of_pos (by linarith [Real.sqrt_nonneg 30]) (by norm_num)
  unfold ConstantAcc.tp_root
  rw [hplus, hminus]
  rw [if_neg (by rintro ⟨-, h2⟩; linarith), if_pos hpp]

lemma c6c_v1 :
    ¬|ConstantAcc.v_integ c6cSt.v0 (ConstantAcc.tp_acc c6cSt)
        ((-4 + Real.sqrt 30) / 2)| < c6cSt.vmax := by
  have h2 : (2 : ℝ) ≤ Real.sqrt 30 :=
    (Real.le_sqrt (by norm_num) (by norm_num)).mpr (by norm_num)
  have hval : ConstantAcc.v_integ c6cSt.v0 (ConstantAcc.tp_acc c6cSt)
      ((-4 + Real.sqrt 30) / 2) = Real.sqrt 30 / 2 := by
    rw [c6c_acc, show c6cSt.v0 = 2 from rfl]
    unfold ConstantAcc.v_integ
    ring
  rw [hval, abs_of_nonneg (by positivity), not_lt,
    show c6cSt.vmax = 1 from rfl]
  linarith

lemma c6c_ov :
    ConstantAcc.tp_sign c6cSt * (c6cSt.vmax * ConstantAcc.tp_sign c6cSt) ≤
      ConstantAcc.tp_sign c6cSt * c6cSt.v0 := by
  rw [c6c_sign]
  norm_num [c6cSt]

/-- Counterexample for C6 as stated: on `c6cSt` the planner selects the
positive root, the Case-1 entry test fails (`|v1| ≥ vmax`), signed
overspeed holds, so the Overspeed warning is emitted — yet the call does
not succeed: it raises the negative-cruise `ValueError`. -/
theorem overspeed_case1_counterexample :
    ConstantAcc.tp_root c6cSt = some ((-4 + Real.sqrt 30) / 2) ∧
    ¬|ConstantAcc.v_integ c6cSt.v0 (ConstantAcc.tp_acc c6cSt)
        ((-4 + Real.sqrt 30) / 2)| < c6cSt.vmax ∧
    ConstantAcc.tp_sign c6cSt * (c6cSt.vmax * ConstantAcc.tp_sign c6cSt) ≤
      ConstantAcc.tp_sign c6cSt * c6cSt.v0 ∧
    (ConstantAcc.calc_trajectory c6cSt).res = .error .negativeCruise ∧
    (ConstantAcc.calc_trajectory c6cSt).warns = 1 := by
  refine ⟨c6c_root, c6c_v1, c6c_ov, ?_⟩
  unfold ConstantAcc.calc_trajectory
  rw [c6c_root]
  rw [if_neg (show ¬ConstantAcc.tp_dp c6cSt = 0 by
        norm_num [ConstantAcc.tp_dp, c6cSt]),
      if_neg (show ¬ConstantAcc.tp_disc c6cSt ≤ 0 by rw [c6c_disc]; norm_num)]
  rw [if_neg (show ¬(c6cSt.point_setted = false) by simp [c6cSt])]
  rw [if_neg (show ¬(c6cSt.constraints_setted = false) by simp [c6cSt])]
  rw [if_neg (show ¬(c6cSt.initial_state_setted = false) by simp [c6cSt])]
  dsimp only
  rw [if_neg c6c_v1, if_neg (not_lt.mpr c6c_ov)]
  unfold ConstantAcc.tp_case1_finish
  dsimp only
  rw [if_pos]
  · exact ⟨rfl, rfl⟩
  · rw [show ConstantAcc.tp_dec c6cSt = 1 by
      unfold ConstantAcc.tp_dec; rw [c6c_sign]; norm_num [c6cSt]]
    rw [c6c_sign]
    unfold ConstantAcc.p_integ
    norm_num [c6cSt, show |(-1 : ℝ)| = 1 by norm_num,
      show |(-2 : ℝ)| = 2 by norm_num]

/-- The C6 witness input: `p0 = 0, pe = 2, v0 = 2, ve = 1, vmax = 1,
accelMax = decelMax = 1` — overspeed Case 1 with a feasible cruise. -/
def c6wSt : ConstantAcc.State :=
  { p0 := 0, pe := 2, v0 := 2, ve := 1, vmax := 1, amax_accel := 1,
    amax_decel := 1, point_setted := true, constraints_setted := true,
    initial_state_setted := true }

lemma c6w_disc : ConstantAcc.tp_disc c6wSt = 18 := by
  unfold ConstantAcc.tp_disc ConstantAcc.tp_b_coeff ConstantAcc.tp_a_coeff
    ConstantAcc.tp_c_coeff ConstantAcc.tp_acc ConstantAcc.tp_dec
    ConstantAcc.tp_sign ConstantAcc.tp_dp c6wSt
  norm_num

lemma c6w_sign : ConstantAcc.tp_sign c6wSt = 1 := by
  unfold ConstantAcc.tp_sign ConstantAcc.tp_dp c6wSt
  norm_num

lemma c6w_acc : ConstantAcc.tp_acc c6wSt = 1 := by
  unfold ConstantAcc.tp_acc
  rw [c6w_sign]
  norm_num [c6wSt]

lemma c6w_root :
    ConstantAcc.tp_root c6wSt = some ((-4 + Real.sqrt 18) / 2) := by
  have hb : ConstantAcc.tp_b_coeff c6wSt = 4 := by
    unfold ConstantAcc.tp_b_coeff ConstantAcc.tp_acc ConstantAcc.tp_dec
      ConstantAcc.tp_sign ConstantAcc.tp_dp c6wSt
    norm_num
  have ha : ConstantAcc.tp_a_coeff c6wSt = 1 := by
    unfold ConstantAcc.tp_a_coeff ConstantAcc.tp_acc ConstantAcc.tp_dec
      ConstantAcc.tp_sign ConstantAcc.tp_dp c6wSt
    norm_num
  have hplus : ConstantAcc.tp_dt01_plus c6wSt = (-4 + Real.sqrt 18) / 2 := by
    unfold ConstantAcc.tp_dt01_plus
    rw [c6w_disc, hb, ha]
    norm_num
  have hminus : ConstantAcc.tp_dt01_minus c6wSt = (-4 - Real.sqrt 18) / 2 := by
    unfold ConstantAcc.tp_dt01_minus
    rw [c6w_disc, hb, ha]
    norm_num
  have h18 : (4 : ℝ) < Real.sqrt 18 := by
    rw [Real.lt_sqrt (by norm_num)]
    norm_num
  have hpp : 0 < (-4 + Real.sqrt 18) / 2 := div_pos (by linarith) (by norm_num)
  have hmn : (-4 - Real.sqrt 18) / 2 < 0 :=
    div_neg_of_neg_of_pos (by linarith [Real.sqrt_nonneg 18]) (by norm_num)
  unfold ConstantAcc.tp_root
  rw [hplus, hminus]
  rw [if_neg (by rintro ⟨-, h2⟩; linarith), if_pos hpp]

lemma c6w_v1 :
    ¬|ConstantAcc.v_integ c6wSt.v0 (ConstantAcc.tp_acc c6wSt)
        ((-4 + Real.sqrt 18) / 2)| < c6wSt.vmax := by
  have h2 : (2 : ℝ) ≤ Real.sqrt 18 :=
    (Real.le_sqrt (by norm_num) (by norm_num)).mpr (by norm_num)
  have hval : ConstantAcc.v_integ c6wSt.v0 (ConstantAcc.tp_acc c6wSt)
      ((-4 + Real.sqrt 18) / 2) = Real.sqrt 18 / 2 := by
    rw [c6w_acc, show c6wSt.v0 = 2 from rfl]
    unfold ConstantAcc.v_integ
    ring
  rw [hval, abs_of_nonneg (by positivity), not_lt,
    show c6wSt.vmax = 1 from rfl]
  linarith

/-- Witness for C6: the success part at `c6wSt`, and the warning-count
part at the already-evaluated rest-to-rest compute on `accW`. -/
theorem overspeed_case1_witness :
    (∃ st' T, ConstantAcc.calc_trajectory c6wSt = ⟨st', .ok T, 1⟩ ∧
      st'.a = [-ConstantAcc.tp_dec c6wSt, 0, -ConstantAcc.tp_dec c6wSt]) ∧
    ((0 : ℕ) = 0 ∨ (0 : ℕ) = 1) :=
  ⟨overspeed_case1.1 c6wSt ((-4 + Real.sqrt 18) / 2) rfl rfl rfl
      (by norm_num [c6wSt]) (by norm_num [c6wSt]) (by norm_num [c6wSt])
      (by norm_num [ConstantAcc.tp_dp, c6wSt])
      (by rw [c6w_disc]; norm_num) c6w_root c6w_v1
      (by rw [c6w_sign]; norm_num [c6wSt])
      (by rw [c6w_sign]; norm_num [c6wSt]),
   (overspeed_case1.2 accW accWPlan 4 0 accW_calc).1⟩

/-- Closed form of a successful rest-to-rest (`v0 = ve = 0`) trapezoidal
compute.  With `k = 1/accelMax + 1/decelMax`: either no motion and
`T = 0`, or Case 0 with `T = √(2·|dp|·k)` exactly when
`2·|dp| < vmax²·k`, or Case 1 with `T = |dp|/vmax + vmax·k/2`. -/
lemma tp_rest_T : ∀ st st' T w,
    0 < st.vmax → 0 < st.amax_accel → 0 < st.amax_decel →
    st.v0 = 0 → st.ve = 0 →
    ConstantAcc.calc_trajectory st = ⟨st', .ok T, w⟩ →
    (ConstantAcc.tp_dp st = 0 ∧ T = 0) ∨
    (ConstantAcc.tp_dp st ≠ 0 ∧
      ((2 * |ConstantAcc.tp_dp st| <
          st.vmax ^ 2 * (1 / st.amax_accel + 1 / st.amax_decel) ∧
        T = Real.sqrt (2 * |ConstantAcc.tp_dp st| *
          (1 / st.amax_accel + 1 / st.amax_decel))) ∨
       (st.vmax ^ 2 * (1 / st.amax_accel + 1 / st.amax_decel) ≤
          2 * |ConstantAcc.tp_dp st| ∧
        T = |ConstantAcc.tp_dp st| / st.vmax +
          st.vmax * (1 / st.amax_accel + 1 / st.amax_decel) / 2))) := by
  intro st st' T w hvm hA hD hv0 hve h
  unfold ConstantAcc.calc_trajectory at h
  split_ifs at h with hp hc hi hdp hdv hdisc
  · simp at h
  · simp at h
  · simp at h
  · left
    simp only [ConstantAcc.CalcResult.mk.injEq, Except.ok.injEq] at h
    exact ⟨hdp, h.2.1.symm⟩
  · simp at h
  · simp at h
  · right
    refine ⟨hdp, ?_⟩
    rcases hroot : ConstantAcc.tp_root st with - | d
    · rw [hroot] at h; simp at h
    · rw [hroot] at h
      have hdpos := tp_root_pos hroot
      have hdisc' : 0 ≤ ConstantAcc.tp_disc st := le_of_lt (not_le.mp hdisc)
      have hb0 : ConstantAcc.tp_b_coeff st = 0 := by
        unfold ConstantAcc.tp_b_coeff; rw [hv0]; ring
      have hcval : ConstantAcc.tp_c_coeff st = -ConstantAcc.tp_dp st := by
        unfold ConstantAcc.tp_c_coeff; rw [hv0, hve]; ring
      have hk : 0 < 1 / st.amax_accel + 1 / st.amax_decel := by positivity
      dsimp only at h
      unfold ConstantAcc.tp_case1_finish at h
      dsimp only at h
      rcases lt_or_gt_of_ne hdp with hneg | hpos
      · -- dp < 0: backward motion, sign = -1.
        have hs : ConstantAcc.tp_sign st = -1 := by
          unfold ConstantAcc.tp_sign
          rw [abs_of_neg hneg, div_neg, div_self (ne_of_lt hneg)]
        have hacc : ConstantAcc.tp_acc st = -st.amax_accel := by
          unfold ConstantAcc.tp_acc; rw [hs]; ring
        have hdec : ConstantAcc.tp_dec st = -st.amax_decel := by
          unfold ConstantAcc.tp_dec; rw [hs]; ring
        have ha_val : ConstantAcc.tp_a_coeff st =
            -(0.5 * st.amax_accel * (1 + st.amax_accel / st.amax_decel)) := by
          unfold ConstantAcc.tp_a_coeff ConstantAcc.tp_acc ConstantAcc.tp_dec
          rw [hs]
          rw [show st.amax_accel * (-1 : ℝ) / (st.amax_decel * (-1 : ℝ)) =
            st.amax_accel / st.amax_decel by
              rw [mul_neg_one, mul_neg_one, neg_div_neg_eq]]
          ring
        have ha_neg : ConstantAcc.tp_a_coeff st < 0 := by
          rw [ha_val]
          have h1 : 0 < st.amax_accel / st.amax_decel := div_pos hA hD
          nlinarith [mul_pos hA h1]
        have hrooteq := tp_root_isRoot hroot hdisc' ha_neg.ne
        rw [hb0, hcval] at hrooteq
        have hstar : ConstantAcc.tp_a_coeff st * d ^ 2 =
            ConstantAcc.tp_dp st := by linarith
        have hident : 2 * -ConstantAcc.tp_dp st =
            (st.amax_accel * d) ^ 2 *
              (1 / st.amax_accel + 1 / st.amax_decel) := by
          rw [← hstar, ha_val]
          field_simp
          ring
        have hval : ConstantAcc.v_integ st.v0 (ConstantAcc.tp_acc st) d =
            -(st.amax_accel * d) := by
          rw [hv0, hacc]; unfold ConstantAcc.v_integ; ring
        split_ifs at h with hv1 hovc h12 h12'
        · -- Case 0.
          simp only [ConstantAcc.CalcResult.mk.injEq, Except.ok.injEq,
            List.sum_cons, List.sum_nil, add_zero] at h
          obtain ⟨-, hT, -⟩ := h
          left
          have hv1' : st.amax_accel * d < st.vmax := by
            rw [hval, abs_neg, abs_of_pos (mul_pos hA hdpos)] at hv1
            exact hv1
          constructor
          · rw [abs_of_neg hneg, hident]
            exact mul_lt_mul_of_pos_right
              (by nlinarith [mul_pos hA hdpos]) hk
          · have habs1 : |(ConstantAcc.v_integ st.v0 (ConstantAcc.tp_acc st) d
                - st.ve) / ConstantAcc.tp_dec st| =
                st.amax_accel * d / st.amax_decel := by
              rw [hval, hve, hdec, sub_zero, neg_div_neg_eq, abs_div,
                abs_of_pos hD, abs_of_pos (mul_pos hA hdpos)]
            rw [habs1] at hT
            have h2dpk : 2 * -ConstantAcc.tp_dp st *
                (1 / st.amax_accel + 1 / st.amax_decel) =
                ((1 + st.amax_accel / st.amax_decel) * d) ^ 2 := by
              rw [← hstar, ha_val]
              field_simp
              ring
            rw [← hT, abs_of_neg hneg, h2dpk,
              Real.sqrt_sq (mul_nonneg (by positivity) hdpos.le)]
            field_simp
            ring
        · simp at h
        · -- Case 1 (accelerating entry).
          simp only [ConstantAcc.CalcResult.mk.injEq, Except.ok.injEq,
            List.sum_cons, List.sum_nil, add_zero] at h
          obtain ⟨-, hT, -⟩ := h
          right
          constructor
          · have hge : st.vmax ≤ st.amax_accel * d := by
              rw [hval, abs_neg, abs_of_pos (mul_pos hA hdpos)] at hv1
              exact not_lt.mp hv1
            have hsq : st.vmax ^ 2 ≤ (st.amax_accel * d) ^ 2 :=
              pow_le_pow_left₀ hvm.le hge 2
            rw [abs_of_neg hneg, hident]
            exact mul_le_mul_of_nonneg_right hsq hk.le
          · have habsA : |(st.vmax * ConstantAcc.tp_sign st - st.v0) /
                ConstantAcc.tp_acc st| = st.vmax / st.amax_accel := by
              rw [hs, hv0, hacc, sub_zero,
                show st.vmax * (-1 : ℝ) = -st.vmax by ring, neg_div_neg_eq,
                abs_div, abs_of_pos hvm, abs_of_pos hA]
            have habsD : |(st.vmax * ConstantAcc.tp_sign st - st.ve) /
                ConstantAcc.tp_dec st| = st.vmax / st.amax_decel := by
              rw [hs, hve, hdec, sub_zero,
                show st.vmax * (-1 : ℝ) = -st.vmax by ring, neg_div_neg_eq,
                abs_div, abs_of_pos hvm, abs_of_pos hD]
            rw [habsA, habsD] at hT
            rw [← hT, abs_of_neg hneg]
            unfold ConstantAcc.p_integ ConstantAcc.tp_dp
            rw [hs, hacc, hdec, hv0]
            field_simp
            ring
        · simp at h
        · exfalso
          exact hovc (by rw [hs, hv0]; simpa using hvm)
      · -- dp > 0: forward motion, sign = 1.
        have hs : ConstantAcc.tp_sign st = 1 := by
          unfold ConstantAcc.tp_sign
          rw [abs_of_pos hpos, div_self (ne_of_gt hpos)]
        have hacc : ConstantAcc.tp_acc st = st.amax_accel := by
          unfold ConstantAcc.tp_acc; rw [hs, mul_one]
        have hdec : ConstantAcc.tp_dec st = st.amax_decel := by
          unfold ConstantAcc.tp_dec; rw [hs, mul_one]
        have ha_val : ConstantAcc.tp_a_coeff st =
            0.5 * st.amax_accel * (1 + st.amax_accel / st.amax_decel) := by
          unfold ConstantAcc.tp_a_coeff ConstantAcc.tp_acc ConstantAcc.tp_dec
          rw [hs]
          simp only [mul_one]
        have ha_pos : 0 < ConstantAcc.tp_a_coeff st := by
          rw [ha_val]
          have h1 : 0 < st.amax_accel / st.amax_decel := div_pos hA hD
          nlinarith [mul_pos hA h1]
        have hrooteq := tp_root_isRoot hroot hdisc' ha_pos.ne'
        rw [hb0, hcval] at hrooteq
        have hstar : ConstantAcc.tp_a_coeff st * d ^ 2 =
            ConstantAcc.tp_dp st := by linarith
        have hident : 2 * ConstantAcc.tp_dp st =
            (st.amax_accel * d) ^ 2 *
              (1 / st.amax_accel + 1 / st.amax_decel) := by
          rw [← hstar, ha_val]
          field_simp
          ring
        have hval : ConstantAcc.v_integ st.v0 (ConstantAcc.tp_acc st) d =
            st.amax_accel * d := by
          rw [hv0, hacc]; unfold ConstantAcc.v_integ; ring
        split_ifs at h with hv1 hovc h12 h12'
        · -- Case 0.
          simp only [ConstantAcc.CalcResult.mk.injEq, Except.ok.injEq,
            List.sum_cons, List.sum_nil, add_zero] at h
          obtain ⟨-, hT, -⟩ := h
          left
          have hv1' : st.amax_accel * d < st.vmax := by
            rw [hval, abs_of_pos (mul_pos hA hdpos)] at hv1
            exact hv1
          constructor
          · rw [abs_of_pos hpos, hident]
            exact mul_lt_mul_of_pos_right
              (by nlinarith [mul_pos hA hdpos]) hk
          · have habs1 : |(ConstantAcc.v_integ st.v0 (ConstantAcc.tp_acc st) d
                - st.ve) / ConstantAcc.tp_dec st| =
                st.amax_accel * d / st.amax_decel := by
              rw [hval, hve, hdec, sub_zero, abs_div,
                abs_of_pos hD, abs_of_pos (mul_pos hA hdpos)]
            rw [habs1] at hT
            have h2dpk : 2 * ConstantAcc.tp_dp st *
                (1 / st.amax_accel + 1 / st.amax_decel) =
                ((1 + st.amax_accel / st.amax_decel) * d) ^ 2 := by
              rw [← hstar, ha_val]
              field_simp
              ring
            rw [← hT, abs_of_pos hpos, h2dpk,
              Real.sqrt_sq (mul_nonneg (by positivity) hdpos.le)]
            field_simp
            ring
        · simp at h
        · -- Case 1 (accelerating entry).
          simp only [ConstantAcc.CalcResult.mk.injEq, Except.ok.injEq,
            List.sum_cons, List.sum_nil, add_zero] at h
          obtain ⟨-, hT, -⟩ := h
          right
          constructor
          · have hge : st.vmax ≤ st.amax_accel * d := by
              rw [hval, abs_of_pos (mul_pos hA hdpos)] at hv1
              exact not_lt.mp hv1
            have hsq : st.vmax ^ 2 ≤ (st.amax_accel * d) ^ 2 :=
              pow_le_pow_left₀ hvm.le hge 2
            rw [abs_of_pos hpos, hident]
            exact mul_le_mul_of_nonneg_right hsq hk.le
          · have habsA : |(st.vmax * ConstantAcc.tp_sign st - st.v0) /
                ConstantAcc.tp_acc st| = st.vmax / st.amax_accel := by
              rw [hs, hv0, hacc, sub_zero, mul_one, abs_div,
                abs_of_pos hvm, abs_of_pos hA]
            have habsD : |(st.vmax * ConstantAcc.tp_sign st - st.ve) /
                ConstantAcc.tp_dec st| = st.vmax / st.amax_decel := by
              rw [hs, hve, hdec, sub_zero, mul_one, abs_div,
                abs_of_pos hvm, abs_of_pos hD]
            rw [habsA, habsD] at hT
            rw [← hT, abs_of_pos hpos]
            unfold ConstantAcc.p_integ ConstantAcc.tp_dp
            rw [hs, hacc, hdec, hv0]
            field_simp
            ring
        · simp at h
        · exfalso
          exact hovc (by rw [hs, hv0]; simpa using hvm)

/-- C7 (amended): for rest-to-rest trapezoidal inputs (`v0 = ve = 0`),
increasing `decelMax` while holding the other inputs fixed never
increases the total duration of a successful compute.  (For nonzero
boundary velocities the claim fails: see the counterexample, where
doubling `decelMax` lengthens an overspeed Case-1 plan.) -/
theorem decel_duration_monotone :
    ∀ (st : ConstantAcc.State) (d1 d2 : ℝ) (s1 s2 : ConstantAcc.State)
      (T1 T2 : ℝ) (w1 w2 : ℕ),
      0 < st.vmax → 0 < st.amax_accel → 0 < d1 → d1 ≤ d2 →
      st.v0 = 0 → st.ve = 0 →
      ConstantAcc.calc_trajectory { st with amax_decel := d1 } =
        ⟨s1, .ok T1, w1⟩ →
      ConstantAcc.calc_trajectory { st with amax_decel := d2 } =
        ⟨s2, .ok T2, w2⟩ →
      T2 ≤ T1 := by
  intro st d1 d2 s1 s2 T1 T2 w1 w2 hvm hA hd1 hd12 hv0 hve h1 h2
  have hd2 : (0 : ℝ) < d2 := lt_of_lt_of_le hd1 hd12
  have r1 := tp_rest_T { st with amax_decel := d1 } s1 T1 w1 hvm hA hd1
    hv0 hve h1
  have r2 := tp_rest_T { st with amax_decel := d2 } s2 T2 w2 hvm hA hd2
    hv0 hve h2
  simp only
    [show ({ st with amax_decel := d1 } : ConstantAcc.State).vmax =
      st.vmax from rfl,
     show ({ st with amax_decel := d1 } : ConstantAcc.State).amax_accel =
      st.amax_accel from rfl,
     show ({ st with amax_decel := d1 } : ConstantAcc.State).amax_decel =
      d1 from rfl,
     show ConstantAcc.tp_dp { st with amax_decel := d1 } =
      ConstantAcc.tp_dp st from rfl] at r1
  simp only
    [show ({ st with amax_decel := d2 } : ConstantAcc.State).vmax =
      st.vmax from rfl,
     show ({ st with amax_decel := d2 } : ConstantAcc.State).amax_accel =
      st.amax_accel from rfl,
     show ({ st with amax_decel := d2 } : ConstantAcc.State).amax_decel =
      d2 from rfl,
     show ConstantAcc.tp_dp { st with amax_decel := d2 } =
      ConstantAcc.tp_dp st from rfl] at r2
  have hk21 : 1 / st.amax_accel + 1 / d2 ≤ 1 / st.amax_accel + 1 / d1 := by
    have := one_div_le_one_div_of_le hd1 hd12
    linarith
  rcases r1 with ⟨hdp0, hT1⟩ | ⟨hdp, r1⟩
  · rcases r2 with ⟨-, hT2⟩ | ⟨hdp', -⟩
    · exact le_of_eq (hT2.trans hT1.symm)
    · exact absurd hdp0 hdp'
  · rcases r2 with ⟨hdp0, -⟩ | ⟨-, r2⟩
    · exact absurd hdp0 hdp
    · rcases r1 with ⟨hc1, hT1⟩ | ⟨hc1, hT1⟩ <;>
        rcases r2 with ⟨hc2, hT2⟩ | ⟨hc2, hT2⟩
      · -- both Case 0
        rw [hT1, hT2]
        exact Real.sqrt_le_sqrt
          (mul_le_mul_of_nonneg_left hk21 (by positivity))
      · -- d1 in Case 0, d2 in Case 1
        rw [hT1, hT2]
        have hstep1 : st.vmax * (1 / st.amax_accel + 1 / d2) / 2 ≤
            |ConstantAcc.tp_dp st| / st.vmax := by
          rw [le_div_iff₀ hvm]
          nlinarith [hc2]
        have hstep2 : 2 * |ConstantAcc.tp_dp st| / st.vmax ≤
            Real.sqrt (2 * |ConstantAcc.tp_dp st| *
              (1 / st.amax_accel + 1 / d1)) := by
          apply (Real.le_sqrt (by positivity) (by positivity)).mpr
          rw [div_pow, div_le_iff₀ (by positivity)]
          nlinarith [mul_le_mul_of_nonneg_left hc1.le
            (by positivity : (0 : ℝ) ≤ 2 * |ConstantAcc.tp_dp st|)]
        have hsplit : 2 * |ConstantAcc.tp_dp st| / st.vmax =
            |ConstantAcc.tp_dp st| / st.vmax +
            |ConstantAcc.tp_dp st| / st.vmax := by ring
        linarith
      · -- d1 in Case 1, d2 in Case 0: impossible, the Case-1 region is
        -- upward closed in the deceleration limit.
        exfalso
        have := mul_le_mul_of_nonneg_left hk21 (sq_nonneg st.vmax)
        linarith
      · -- both Case 1
        rw [hT1, hT2]
        have := mul_le_mul_of_nonneg_left hk21 hvm.le
        linarith

/-- The C7 counterexample pair: the C6 witness input (`p0 = 0, pe = 2,
v0 = 2, ve = 1, vmax = 1, accelMax = 1`, nonzero boundary velocities)
with the deceleration limit raised from 1 to 2. -/
def c7dSt : ConstantAcc.State := { c6wSt with amax_decel := 2 }

lemma c7d_disc : ConstantAcc.tp_disc c7dSt = 51 / 4 := by
  unfold ConstantAcc.tp_disc ConstantAcc.tp_b_coeff ConstantAcc.tp_a_coeff
    ConstantAcc.tp_c_coeff ConstantAcc.tp_acc ConstantAcc.tp_dec
    ConstantAcc.tp_sign ConstantAcc.tp_dp c7dSt c6wSt
  norm_num

lemma c7d_sign : ConstantAcc.tp_sign c7dSt = 1 := by
  unfold ConstantAcc.tp_sign ConstantAcc.tp_dp c7dSt c6wSt
  norm_num

lemma c7d_acc : ConstantAcc.tp_acc c7dSt = 1 := by
  unfold ConstantAcc.tp_acc
  rw [c7d_sign]
  norm_num [c7dSt, c6wSt]

lemma c7d_dec : ConstantAcc.tp_dec c7dSt = 2 := by
  unfold ConstantAcc.tp_dec
  rw [c7d_sign]
  norm_num [c7dSt, c6wSt]

lemma c7d_root :
    ConstantAcc.tp_root c7dSt = some ((-3 + Real.sqrt (51 / 4)) / (3 / 2)) := by
  have hb : ConstantAcc.tp_b_coeff c7dSt = 3 := by
    unfold ConstantAcc.tp_b_coeff ConstantAcc.tp_acc ConstantAcc.tp_dec
      ConstantAcc.tp_sign ConstantAcc.tp_dp c7dSt c6wSt
    norm_num
  have ha : ConstantAcc.tp_a_coeff c7dSt = 3 / 4 := by
    unfold ConstantAcc.tp_a_coeff ConstantAcc.tp_acc ConstantAcc.tp_dec
      ConstantAcc.tp_sign ConstantAcc.tp_dp c7dSt c6wSt
    norm_num
  have hplus : ConstantAcc.tp_dt01_plus c7dSt =
      (-3 + Real.sqrt (51 / 4)) / (3 / 2) := by
    unfold ConstantAcc.tp_dt01_plus
    rw [c7d_disc, hb, ha]
    norm_num
  have hminus : ConstantAcc.tp_dt01_minus c7dSt =
      (-3 - Real.sqrt (51 / 4)) / (3 / 2) := by
    unfold ConstantAcc.tp_dt01_minus
    rw [c7d_disc, hb, ha]
    norm_num
  have h51 : (3 : ℝ) < Real.sqrt (51 / 4) := by
    rw [Real.lt_sqrt (by norm_num)]
    norm_num
  have hpp : 0 < (-3 + Real.sqrt (51 / 4)) / (3 / 2) :=
    div_pos (by linarith) (by norm_num)
  have hmn : (-3 - Real.sqrt (51 / 4)) / (3 / 2) < 0 :=
    div_neg_of_neg_of_pos (by linarith [Real.sqrt_nonneg (51 / 4 : ℝ)])
      (by norm_num)
  unfold ConstantAcc.tp_root
  rw [hplus, hminus]
  rw [if_neg (by rintro ⟨-, h2⟩; linarith), if_pos hpp]

lemma c7d_v1 :
    ¬|ConstantAcc.v_integ c7dSt.v0 (ConstantAcc.tp_acc c7dSt)
        ((-3 + Real.sqrt (51 / 4)) / (3 / 2))| < c7dSt.vmax := by
  have h32 : (3 / 2 : ℝ) ≤ Real.sqrt (51 / 4) :=
    (Real.le_sqrt (by norm_num) (by norm_num)).mpr (by norm_num)
  have hval : ConstantAcc.v_integ c7dSt.v0 (ConstantAcc.tp_acc c7dSt)
      ((-3 + Real.sqrt (51 / 4)) / (3 / 2)) =
      Real.sqrt (51 / 4) * (2 / 3) := by
    rw [c7d_acc, show c7dSt.v0 = 2 from rfl]
    unfold ConstantAcc.v_integ
    ring
  rw [hval, abs_of_nonneg (by positivity), not_lt,
    show c7dSt.vmax = 1 from rfl]
  linarith

/-- Evaluation of the trapezoidal planner on the C6/C7 input with
`decelMax = 1` (overspeed Case 1, total duration `3/2`). -/
lemma c6w_calc :
    ConstantAcc.calc_trajectory c6wSt =
      ⟨{ c6wSt with dt := [1, 1 / 2, 0], a := [-1, 0, -1], v := [2, 1, 1],
                    p := [0, 3 / 2, 2], case := 1,
                    trajectory_calced := true },
       .ok (3 / 2), 1⟩ := by
  unfold ConstantAcc.calc_trajectory
  rw [c6w_root]
  rw [if_neg (show ¬ConstantAcc.tp_dp c6wSt = 0 by
        norm_num [ConstantAcc.tp_dp, c6wSt]),
      if_neg (show ¬ConstantAcc.tp_disc c6wSt ≤ 0 by
        rw [c6w_disc]; norm_num)]
  rw [if_neg (show ¬(c6wSt.point_setted = false) by simp [c6wSt])]
  rw [if_neg (show ¬(c6wSt.constraints_setted = false) by simp [c6wSt])]
  rw [if_neg (show ¬(c6wSt.initial_state_setted = false) by simp [c6wSt])]
  dsimp only
  rw [if_neg c6w_v1]
  rw [if_neg (show ¬(ConstantAcc.tp_sign c6wSt * c6wSt.v0 <
      ConstantAcc.tp_sign c6wSt * (c6wSt.vmax * ConstantAcc.tp_sign c6wSt)) by
    rw [c6w_sign]; norm_num [c6wSt])]
  unfold ConstantAcc.tp_case1_finish
  dsimp only
  rw [if_neg]
  · rw [show ConstantAcc.tp_dec c6wSt = 1 by
      unfold ConstantAcc.tp_dec; rw [c6w_sign]; norm_num [c6wSt]]
    rw [c6w_sign]
    unfold ConstantAcc.p_integ
    simp only [c6wSt, ConstantAcc.CalcResult.mk.injEq,
      ConstantAcc.State.mk.injEq]
    norm_num [show |(-1 : ℝ)| = 1 by norm_num, List.sum_cons, List.sum_nil]
  · rw [show ConstantAcc.tp_dec c6wSt = 1 by
      unfold ConstantAcc.tp_dec; rw [c6w_sign]; norm_num [c6wSt]]
    rw [c6w_sign]
    unfold ConstantAcc.p_integ
    norm_num [c6wSt, show |(-1 : ℝ)| = 1 by norm_num]

/-- Evaluation on the same input with `decelMax = 2` (overspeed Case 1,
total duration `7/4` — longer, despite the larger deceleration limit). -/
lemma c7d_calc :
    ConstantAcc.calc_trajectory c7dSt =
      ⟨{ c7dSt with dt := [1 / 2, 5 / 4, 0], a := [-2, 0, -2], v := [2, 1, 1],
                    p := [0, 3 / 4, 2], case := 1,
                    trajectory_calced := true },
       .ok (7 / 4), 1⟩ := by
  unfold ConstantAcc.calc_trajectory
  rw [c7d_root]
  rw [if_neg (show ¬ConstantAcc.tp_dp c7dSt = 0 by
        norm_num [ConstantAcc.tp_dp, c7dSt, c6wSt]),
      if_neg (show ¬ConstantAcc.tp_disc c7dSt ≤ 0 by
        rw [c7d_disc]; norm_num)]
  rw [if_neg (show ¬(c7dSt.point_setted = false) by simp [c7dSt, c6wSt])]
  rw [if_neg (show ¬(c7dSt.constraints_setted = false) by simp [c7dSt, c6wSt])]
  rw [if_neg (show ¬(c7dSt.initial_state_setted = false) by
    simp [c7dSt, c6wSt])]
  dsimp only
  rw [if_neg c7d_v1]
  rw [if_neg (show ¬(ConstantAcc.tp_sign c7dSt * c7dSt.v0 <
      ConstantAcc.tp_sign c7dSt * (c7dSt.vmax * ConstantAcc.tp_sign c7dSt)) by
    rw [c7d_sign]; norm_num [c7dSt, c6wSt])]
  unfold ConstantAcc.tp_case1_finish
  dsimp only
  rw [if_neg]
  · rw [c7d_dec, c7d_sign]
    unfold ConstantAcc.p_integ
    simp only [c7dSt, c6wSt, ConstantAcc.CalcResult.mk.injEq,
      ConstantAcc.State.mk.injEq]
    norm_num [show |(-(1 / 2) : ℝ)| = 1 / 2 by norm_num,
      List.sum_cons, List.sum_nil]
  · rw [c7d_dec, c7d_sign]
    unfold ConstantAcc.p_integ
    norm_num [c7dSt, c6wSt, show |(-(1 / 2) : ℝ)| = 1 / 2 by norm_num]

/-- Counterexample for C7 as stated: the same trapezoidal inputs with
deceleration limits 1 < 2; both computes succeed, yet the larger
deceleration limit gives the longer total duration (7/4 > 3/2). -/
theorem decel_duration_counterexample :
    c7dSt = { c6wSt with amax_decel := 2 } ∧ c6wSt.amax_decel = 1 ∧
    (∃ s1, ConstantAcc.calc_trajectory c6wSt = ⟨s1, .ok (3 / 2), 1⟩) ∧
    (∃ s2, ConstantAcc.calc_trajectory c7dSt = ⟨s2, .ok (7 / 4), 1⟩) ∧
    ¬((7 : ℝ) / 4 ≤ 3 / 2) :=
  ⟨rfl, rfl, ⟨_, c6w_calc⟩, ⟨_, c7d_calc⟩, by norm_num⟩

/-- The C7 witness base input: rest-to-rest, `p0 = 0, pe = 4, vmax = 1,
accelMax = 1`. -/
def c7wSt : ConstantAcc.State :=
  { p0 := 0, pe := 4, v0 := 0, ve := 0, vmax := 1, amax_accel := 1,
    amax_decel := 1, point_setted := true, constraints_setted := true,
    initial_state_setted := true }

/-- The witness input with `decelMax = 1`. -/
def c7w1St : ConstantAcc.State := { c7wSt with amax_decel := 1 }

/-- The witness input with `decelMax = 2`. -/
def c7w2St : ConstantAcc.State := { c7wSt with amax_decel := 2 }

lemma c7w1_disc : ConstantAcc.tp_disc c7w1St = 16 := by
  unfold ConstantAcc.tp_disc ConstantAcc.tp_b_coeff ConstantAcc.tp_a_coeff
    ConstantAcc.tp_c_coeff ConstantAcc.tp_acc ConstantAcc.tp_dec
    ConstantAcc.tp_sign ConstantAcc.tp_dp c7w1St c7wSt
  norm_num

lemma c7w1_sign : ConstantAcc.tp_sign c7w1St = 1 := by
  unfold ConstantAcc.tp_sign ConstantAcc.tp_dp c7w1St c7wSt
  norm_num

lemma c7w1_acc : ConstantAcc.tp_acc c7w1St = 1 := by
  unfold ConstantAcc.tp_acc
  rw [c7w1_sign]
  norm_num [c7w1St, c7wSt]

lemma c7w1_dec : ConstantAcc.tp_dec c7w1St = 1 := by
  unfold ConstantAcc.tp_dec
  rw [c7w1_sign]
  norm_num [c7w1St, c7wSt]

lemma c7w1_root : ConstantAcc.tp_root c7w1St = some 2 := by
  have h16 : Real.sqrt (ConstantAcc.tp_disc c7w1St) = 4 := by
    rw [c7w1_disc, show (16 : ℝ) = 4 ^ 2 by norm_num,
      Real.sqrt_sq (by norm_num)]
  have hplus : ConstantAcc.tp_dt01_plus c7w1St = 2 := by
    unfold ConstantAcc.tp_dt01_plus
    rw [h16]
    unfold ConstantAcc.tp_b_coeff ConstantAcc.tp_a_coeff ConstantAcc.tp_acc
      ConstantAcc.tp_dec ConstantAcc.tp_sign ConstantAcc.tp_dp c7w1St c7wSt
    norm_num
  have hminus : ConstantAcc.tp_dt01_minus c7w1St = -2 := by
    unfold ConstantAcc.tp_dt01_minus
    rw [h16]
    unfold ConstantAcc.tp_b_coeff ConstantAcc.tp_a_coeff ConstantAcc.tp_acc
      ConstantAcc.tp_dec ConstantAcc.tp_sign ConstantAcc.tp_dp c7w1St c7wSt
    norm_num
  unfold ConstantAcc.tp_root
  rw [hplus, hminus]
  norm_num

/-- Evaluation of the rest-to-rest witness with `decelMax = 1`
(Case 1, total duration 5). -/
lemma c7w1_calc :
    ConstantAcc.calc_trajectory c7w1St =
      ⟨{ c7w1St with dt := [1, 3, 1], a := [1, 0, -1], v := [0, 1, 1],
                     p := [0, 1 / 2, 7 / 2], case := 1,
                     trajectory_calced := true },
       .ok 5, 0⟩ := by
  unfold ConstantAcc.calc_trajectory
  rw [c7w1_root]
  rw [if_neg (show ¬ConstantAcc.tp_dp c7w1St = 0 by
        norm_num [ConstantAcc.tp_dp, c7w1St, c7wSt]),
      if_neg (show ¬ConstantAcc.tp_disc c7w1St ≤ 0 by
        rw [c7w1_disc]; norm_num)]
  rw [if_neg (show ¬(c7w1St.point_setted = false) by simp [c7w1St, c7wSt])]
  rw [if_neg (show ¬(c7w1St.constraints_setted = false) by
    simp [c7w1St, c7wSt])]
  rw [if_neg (show ¬(c7w1St.initial_state_setted = false) by
    simp [c7w1St, c7wSt])]
  dsimp only
  rw [if_neg (show ¬|ConstantAcc.v_integ c7w1St.v0 (ConstantAcc.tp_acc c7w1St)
      2| < c7w1St.vmax by
    rw [c7w1_acc]
    unfold ConstantAcc.v_integ
    norm_num [c7w1St, c7wSt])]
  rw [if_pos (show ConstantAcc.tp_sign c7w1St * c7w1St.v0 <
      ConstantAcc.tp_sign c7w1St * (c7w1St.vmax * ConstantAcc.tp_sign c7w1St) by
    rw [c7w1_sign]; norm_num [c7w1St, c7wSt])]
  unfold ConstantAcc.tp_case1_finish
  dsimp only
  rw [if_neg]
  · rw [c7w1_dec, c7w1_acc, c7w1_sign]
    unfold ConstantAcc.p_integ
    simp only [c7w1St, c7wSt, ConstantAcc.CalcResult.mk.injEq,
      ConstantAcc.State.mk.injEq]
    norm_num [List.sum_cons, List.sum_nil]
  · rw [c7w1_dec, c7w1_acc, c7w1_sign]
    unfold ConstantAcc.p_integ
    norm_num [c7w1St, c7wSt]

lemma c7w2_disc : ConstantAcc.tp_disc c7w2St = 12 := by
  unfold ConstantAcc.tp_disc ConstantAcc.tp_b_coeff ConstantAcc.tp_a_coeff
    ConstantAcc.tp_c_coeff ConstantAcc.tp_acc ConstantAcc.tp_dec
    ConstantAcc.tp_sign ConstantAcc.tp_dp c7w2St c7wSt
  norm_num

lemma c7w2_sign : ConstantAcc.tp_sign c7w2St = 1 := by
  unfold ConstantAcc.tp_sign ConstantAcc.tp_dp c7w2St c7wSt
  norm_num

lemma c7w2_acc : ConstantAcc.tp_acc c7w2St = 1 := by
  unfold ConstantAcc.tp_acc
  rw [c7w2_sign]
  norm_num [c7w2St, c7wSt]

lemma c7w2_dec : ConstantAcc.tp_dec c7w2St = 2 := by
  unfold ConstantAcc.tp_dec
  rw [c7w2_sign]
  norm_num [c7w2St, c7wSt]

lemma c7w2_root :
    ConstantAcc.tp_root c7w2St = some (Real.sqrt 12 / (3 / 2)) := by
  have hb : ConstantAcc.tp_b_coeff c7w2St = 0 := by
    unfold ConstantAcc.tp_b_coeff ConstantAcc.tp_acc ConstantAcc.tp_dec
      ConstantAcc.tp_sign ConstantAcc.tp_dp c7w2St c7wSt
    norm_num
  have ha : ConstantAcc.tp_a_coeff c7w2St = 3 / 4 := by
    unfold ConstantAcc.tp_a_coeff ConstantAcc.tp_acc ConstantAcc.tp_dec
      ConstantAcc.tp_sign ConstantAcc.tp_dp c7w2St c7wSt
    norm_num
  have hplus : ConstantAcc.tp_dt01_plus c7w2St = Real.sqrt 12 / (3 / 2) := by
    unfold ConstantAcc.tp_dt01_plus
    rw [c7w2_disc, hb, ha]
    norm_num
  have hminus : ConstantAcc.tp_dt01_minus c7w2St =
      -Real.sqrt 12 / (3 / 2) := by
    unfold ConstantAcc.tp_dt01_minus
    rw [c7w2_disc, hb, ha]
    norm_num
  have h12pos : (0 : ℝ) < Real.sqrt 12 :=
    Real.sqrt_pos.mpr (by norm_num)
  have hpp : 0 < Real.sqrt 12 / (3 / 2) := div_pos h12pos (by norm_num)
  have hmn : -Real.sqrt 12 / (3 / 2) < 0 :=
    div_neg_of_neg_of_pos (by linarith) (by norm_num)
  unfold ConstantAcc.tp_root
  rw [hplus, hminus]
  rw [if_neg (by rintro ⟨-, h2⟩; linarith), if_pos hpp]

lemma c7w2_v1 :
    ¬|ConstantAcc.v_integ c7w2St.v0 (ConstantAcc.tp_acc c7w2St)
        (Real.sqrt 12 / (3 / 2))| < c7w2St.vmax := by
  have h32 : (3 / 2 : ℝ) ≤ Real.sqrt 12 :=
    (Real.le_sqrt (by norm_num) (by norm_num)).mpr (by norm_num)
  have hval : ConstantAcc.v_integ c7w2St.v0 (ConstantAcc.tp_acc c7w2St)
      (Real.sqrt 12 / (3 / 2)) = Real.sqrt 12 * (2 / 3) := by
    rw [c7w2_acc, show c7w2St.v0 = 0 from rfl]
    unfold ConstantAcc.v_integ
    ring
  rw [hval, abs_of_nonneg (by positivity), not_lt,
    show c7w2St.vmax = 1 from rfl]
  linarith

/-- Evaluation of the rest-to-rest witness with `decelMax = 2`
(Case 1, total duration 19/4). -/
lemma c7w2_calc :
    ConstantAcc.calc_trajectory c7w2St =
      ⟨{ c7w2St with dt := [1, 13 / 4, 1 / 2], a := [1, 0, -2],
                     v := [0, 1, 1], p := [0, 1 / 2, 15 / 4], case := 1,
                     trajectory_calced := true },
       .ok (19 / 4), 0⟩ := by
  unfold ConstantAcc.calc_trajectory
  rw [c7w2_root]
  rw [if_neg (show ¬ConstantAcc.tp_dp c7w2St = 0 by
        norm_num [ConstantAcc.tp_dp, c7w2St, c7wSt]),
      if_neg (show ¬ConstantAcc.tp_disc c7w2St ≤ 0 by
        rw [c7w2_disc]; norm_num)]
  rw [if_neg (show ¬(c7w2St.point_setted = false) by simp [c7w2St, c7wSt])]
  rw [if_neg (show ¬(c7w2St.constraints_setted = false) by
    simp [c7w2St, c7wSt])]
  rw [if_neg (show ¬(c7w2St.initial_state_setted = false) by
    simp [c7w2St, c7wSt])]
  dsimp only
  rw [if_neg c7w2_v1]
  rw [if_pos (show ConstantAcc.tp_sign c7w2St * c7w2St.v0 <
      ConstantAcc.tp_sign c7w2St * (c7w2St.vmax * ConstantAcc.tp_sign c7w2St) by
    rw [c7w2_sign]; norm_num [c7w2St, c7wSt])]
  unfold ConstantAcc.tp_case1_finish
  dsimp only
  rw [if_neg]
  · rw [c7w2_dec, c7w2_acc, c7w2_sign]
    unfold ConstantAcc.p_integ
    simp only [c7w2St, c7wSt, ConstantAcc.CalcResult.mk.injEq,
      ConstantAcc.State.mk.injEq]
    norm_num [show |(1 / 2 : ℝ)| = 1 / 2 by norm_num,
      List.sum_cons, List.sum_nil]
  · rw [c7w2_dec, c7w2_acc, c7w2_sign]
    unfold ConstantAcc.p_integ
    norm_num [c7w2St, c7wSt, show |(1 / 2 : ℝ)| = 1 / 2 by norm_num]

/-- Witness for C7 at the rest-to-rest input `c7wSt` with deceleration
limits 1 ≤ 2: durations 5 and 19/4, and the theorem yields 19/4 ≤ 5. -/
theorem decel_duration_monotone_witness :
    (19 : ℝ) / 4 ≤ 5 :=
  decel_duration_monotone c7wSt 1 2
    { c7w1St with dt := [1, 3, 1], a := [1, 0, -1], v := [0, 1, 1],
                  p := [0, 1 / 2, 7 / 2], case := 1,
                  trajectory_calced := true }
    { c7w2St with dt := [1, 13 / 4, 1 / 2], a := [1, 0, -2], v := [0, 1, 1],
                  p := [0, 1 / 2, 15 / 4], case := 1,
                  trajectory_calced := true }
    5 (19 / 4) 0 0
    (by norm_num [c7wSt]) (by norm_num [c7wSt]) (by norm_num) (by norm_num)
    rfl rfl c7w1_calc c7w2_calc

end
